import Mathlib

/-!
Verification of the `roadmap` package of grokify/structured-roadmap.

The Go source is embedded shallowly: each Go type becomes a Lean structure
(strings stay strings; `Status`, `Priority` and `ContentType` are string
abbreviations exactly as the Go `type X string` declarations), Go slices
become lists, and the two Go maps that matter are modelled as follows:

* `map[string]bool` sets used by `Validate` (collected ids) become
  `List String` with `contains` as membership — insertion order is kept but
  only membership is ever consulted, matching the Go code;
* `map[Status]LegendEntry` (the document legend, a JSON object) becomes an
  association list `List (Status × LegendEntry)` with `lookup`;
* `map[string][]Item` results of the grouping functions become total
  functions `String → List Item` (a missing key reads as `[]`, exactly the
  Go nil-slice read), built by the same per-item append loop as the source.

The external change-type registry (`changelog.DefaultRegistry.IsValidName`
from the structured-changelog dependency, not part of this repository) is
passed to `Validate` as a parameter `reg : String → Bool`, mirroring the
spec's description of it as an externally supplied capability.

Go field names are kept verbatim except `Type`, which is a Lean keyword and
is rendered as `Type'` on `Item` and `ContentBlock`.
-/

set_option maxRecDepth 8000

namespace SRoadmap

/-- Go: `type Status string`. -/
abbrev Status := String

/-- Go: `type Priority string`. -/
abbrev Priority := String

/-- Go: `type ContentType string`. -/
abbrev ContentType := String

def StatusCompleted : Status := "completed"

def StatusInProgress : Status := "in_progress"

def StatusPlanned : Status := "planned"

def StatusFuture : Status := "future"

def PriorityCritical : Priority := "critical"

def PriorityHigh : Priority := "high"

def PriorityMedium : Priority := "medium"

def PriorityLow : Priority := "low"

def ContentTypeText : ContentType := "text"

def ContentTypeCode : ContentType := "code"

def ContentTypeDiagram : ContentType := "diagram"

def ContentTypeTable : ContentType := "table"

def ContentTypeList : ContentType := "list"

def ContentTypeBlockquote : ContentType := "blockquote"

/-- Display metadata for a status (Go struct `LegendEntry`). -/
structure LegendEntry where
  Emoji : String := ""
  Description : String := ""
deriving DecidableEq

/-- A project area/component for grouping items (Go struct `Area`). -/
structure Area where
  ID : String := ""
  Name : String := ""
  Priority : Int := 0
deriving DecidableEq

/-- A development phase (Go struct `Phase`). -/
structure Phase where
  ID : String := ""
  Name : String := ""
  Status : Status := ""
  Order : Int := 0
  Description : String := ""
deriving DecidableEq

/-- A sub-task with completion status (Go struct `Task`). -/
structure Task where
  ID : String := ""
  Description : String := ""
  Completed : Bool := false
  FilePath : String := ""
deriving DecidableEq

/-- A rich content block within an item or section (Go struct
`ContentBlock`; the Go field `Type` is rendered `Type'`). -/
structure ContentBlock where
  Type' : ContentType := ""
  Value : String := ""
  Language : String := ""
  Format : String := ""
  Headers : List String := []
  Rows : List (List String) := []
  Items : List String := []
deriving DecidableEq

/-- A roadmap item (Go struct `Item`; the Go field `Type` is rendered
`Type'`). -/
structure Item where
  ID : String := ""
  Title : String := ""
  Description : String := ""
  Status : Status := ""
  Version : String := ""
  CompletedDate : String := ""
  TargetQuarter : String := ""
  TargetVersion : String := ""
  Area : String := ""
  Type' : String := ""
  Phase : String := ""
  Priority : Priority := ""
  Order : Int := 0
  DependsOn : List String := []
  Tasks : List Task := []
  Content : List ContentBlock := []
deriving DecidableEq

/-- A freeform content section (Go struct `Section`). -/
structure Section where
  ID : String := ""
  Title : String := ""
  Order : Int := 0
  Content : List ContentBlock := []
deriving DecidableEq

/-- A version milestone (Go struct `VersionEntry`). -/
structure VersionEntry where
  Version : String := ""
  Date : String := ""
  Status : Status := ""
  Summary : String := ""
deriving DecidableEq

/-- An external SDK dependency (Go struct `ExternalDependency`). -/
structure ExternalDependency where
  Name : String := ""
  Status : String := ""
  Note : String := ""
deriving DecidableEq

/-- An internal package dependency (Go struct `InternalDependency`). -/
structure InternalDependency where
  Package : String := ""
  DependsOn : List String := []
deriving DecidableEq

/-- External and internal dependencies (Go struct `Dependencies`). -/
structure Dependencies where
  External : List ExternalDependency := []
  Internal : List InternalDependency := []
deriving DecidableEq

/-- The top-level IR structure (Go struct `Roadmap`). `GeneratedAt` is the
Go `*time.Time` pointer, modelled opaquely as an optional timestamp string;
it carries no logic. The Go map field `Legend` is an association list. -/
structure Roadmap where
  IRVersion : String := ""
  Project : String := ""
  Repository : String := ""
  GeneratedAt : Option String := none
  Legend : List (Status × LegendEntry) := []
  Areas : List Area := []
  Phases : List Phase := []
  Items : List Item := []
  Sections : List Section := []
  VersionHistory : List VersionEntry := []
  Dependencies : Option Dependencies := none
deriving DecidableEq

/-- Go `DefaultLegend`: the built-in legend map, as a partial function. -/
def DefaultLegend : Status → Option LegendEntry := fun s =>
  if s = StatusCompleted then some { Emoji := "✅", Description := "Completed" }
  else if s = StatusInProgress then some { Emoji := "🚧", Description := "In Progress" }
  else if s = StatusPlanned then some { Emoji := "📋", Description := "Planned" }
  else if s = StatusFuture then some { Emoji := "💡", Description := "Under Consideration" }
  else none

/-- Go `(*Roadmap).GetLegend`: when the document supplies a non-empty
legend, overlay it entry-by-entry on the default (a lookup that hits the
document legend wins, otherwise the default applies); with no document
legend the default is returned unchanged. -/
def GetLegend (r : Roadmap) (s : Status) : Option LegendEntry :=
  if r.Legend.length > 0 then
    match r.Legend.lookup s with
    | some v => some v
    | none => DefaultLegend s
  else DefaultLegend s

/-- Go `(*Roadmap).GetStatusEmoji`. -/
def GetStatusEmoji (r : Roadmap) (status : Status) : String :=
  match GetLegend r status with
  | some entry => entry.Emoji
  | none => ""

/-- Go `(*Roadmap).ItemsByArea`: items grouped by area. -/
def ItemsByArea (r : Roadmap) : String → List Item :=
  r.Items.foldl (fun result item =>
    let area := item.Area
    let area := if area = "" then "_unspecified" else area
    fun k => if k = area then result k ++ [item] else result k)
    (fun _ => [])

/-- Go `(*Roadmap).ItemsByType`: items grouped by change type. -/
def ItemsByType (r : Roadmap) : String → List Item :=
  r.Items.foldl (fun result item =>
    let t := item.Type'
    let t := if t = "" then "_unspecified" else t
    fun k => if k = t then result k ++ [item] else result k)
    (fun _ => [])

/-- Go `(*Roadmap).ItemsByPhase`: items grouped by phase. -/
def ItemsByPhase (r : Roadmap) : String → List Item :=
  r.Items.foldl (fun result item =>
    let phase := item.Phase
    let phase := if phase = "" then "_unphased" else phase
    fun k => if k = phase then result k ++ [item] else result k)
    (fun _ => [])

/-- Go `(*Roadmap).ItemsByStatus`: items grouped by status (no sentinel). -/
def ItemsByStatus (r : Roadmap) : Status → List Item :=
  r.Items.foldl (fun result item =>
    fun k => if k = item.Status then result k ++ [item] else result k)
    (fun _ => [])

/-- Go `(*Roadmap).ItemsByQuarter`: items grouped by target quarter. -/
def ItemsByQuarter (r : Roadmap) : String → List Item :=
  r.Items.foldl (fun result item =>
    let quarter := item.TargetQuarter
    let quarter := if quarter = "" then "_unscheduled" else quarter
    fun k => if k = quarter then result k ++ [item] else result k)
    (fun _ => [])

/-- Go `(*Roadmap).ItemsByPriority`: items grouped by priority level. -/
def ItemsByPriority (r : Roadmap) : Priority → List Item :=
  r.Items.foldl (fun result item =>
    let priority := item.Priority
    let priority := if priority = "" then "_unspecified" else priority
    fun k => if k = priority then result k ++ [item] else result k)
    (fun _ => [])

/-- Go struct `ValidationError`. -/
structure ValidationError where
  Field : String
  Message : String
deriving DecidableEq

/-- Go struct `ValidationResult`. -/
structure ValidationResult where
  Valid : Bool
  Errors : List ValidationError
deriving DecidableEq

/-- Go `(*ValidationResult).addError`: append the error and clear `Valid`. -/
def ValidationResult.addError (r : ValidationResult) (field message : String) : ValidationResult :=
  { Valid := false, Errors := r.Errors ++ [{ Field := field, Message := message }] }

/-- Go `isValidStatus`: membership in the closed 4-value status enum. -/
def isValidStatus (s : Status) : Bool :=
  s == StatusCompleted || s == StatusInProgress || s == StatusPlanned || s == StatusFuture

/-- Go `isValidQuarter`: the anchored regular expression
`Q[1-4] \d{4}` — a literal `Q`, a digit 1-4, one space, exactly four ASCII
digits, and nothing else. -/
def isValidQuarter (q : String) : Bool :=
  match q.data with
  | 'Q' :: c :: ' ' :: ds =>
    (c == '1' || c == '2' || c == '3' || c == '4') && ds.length == 4 && ds.all Char.isDigit
  | _ => false

/-- Go `validateContentBlock`: per-type payload dispatch over the tagged
union; the Go `switch` cases are mutually exclusive string constants, so an
if-chain in the same order is an exact translation. -/
def validateContentBlock (block : ContentBlock) (pfx : String) : Option ValidationError :=
  if block.Type' = ContentTypeText ∨ block.Type' = ContentTypeCode ∨
      block.Type' = ContentTypeDiagram ∨ block.Type' = ContentTypeBlockquote then
    if block.Value = "" then
      some { Field := pfx ++ ".value", Message := "required for type " ++ block.Type' }
    else none
  else if block.Type' = ContentTypeTable then
    if block.Headers.length = 0 then
      some { Field := pfx ++ ".headers", Message := "required for type table" }
    else none
  else if block.Type' = ContentTypeList then
    if block.Items.length = 0 then
      some { Field := pfx ++ ".items", Message := "required for type list" }
    else none
  else if block.Type' = "" then
    some { Field := pfx ++ ".type", Message := "required field is missing" }
  else
    some { Field := pfx ++ ".type", Message := "unknown type: " ++ block.Type' }

/-- One iteration of the Go task loop inside `Validate`'s item pass. -/
def taskStep (pfx : String) (result : ValidationResult) (p : Nat × Task) : ValidationResult :=
  if p.2.Description = "" then
    result.addError (pfx ++ ".tasks[" ++ toString p.1 ++ "].description") "required field is missing"
  else result

/-- One iteration of the Go content-block loop inside `Validate` (shared by
the item pass and the section pass, whose bodies are identical). -/
def blockStep (pfx : String) (result : ValidationResult) (p : Nat × ContentBlock) : ValidationResult :=
  match validateContentBlock p.2 (pfx ++ ".content[" ++ toString p.1 ++ "]") with
  | some e => { Valid := false, Errors := result.Errors ++ [e] }
  | none => result

/-- One iteration of the Go `for i, item := range r.Items` validation loop:
id presence/uniqueness (threading the collected id set), title, status,
target quarter, change type, tasks, content blocks — in source order. -/
def validateItemStep (reg : String → Bool) (acc : ValidationResult × List String)
    (p : Nat × Item) : ValidationResult × List String :=
  let item := p.2
  let pfx := "items[" ++ toString p.1 ++ "]"
  let acc1 :=
    if item.ID = "" then
      (acc.1.addError (pfx ++ ".id") "required field is missing", acc.2)
    else if acc.2.contains item.ID then
      (acc.1.addError (pfx ++ ".id") ("duplicate ID: " ++ item.ID), acc.2)
    else
      (acc.1, acc.2 ++ [item.ID])
  let result := acc1.1
  let result :=
    if item.Title = "" then result.addError (pfx ++ ".title") "required field is missing"
    else result
  let result :=
    if item.Status = "" then result.addError (pfx ++ ".status") "required field is missing"
    else if isValidStatus item.Status = false then
      result.addError (pfx ++ ".status") ("invalid status: " ++ item.Status)
    else result
  let result :=
    if item.TargetQuarter ≠ "" ∧ isValidQuarter item.TargetQuarter = false then
      result.addError (pfx ++ ".target_quarter")
        ("invalid format: " ++ item.TargetQuarter ++ " (expected 'Q1 2026')")
    else result
  let result :=
    if item.Type' ≠ "" ∧ reg item.Type' = false then
      result.addError (pfx ++ ".type")
        ("invalid change type: " ++ item.Type' ++ " (see structured-changelog for valid types)")
    else result
  let result := item.Tasks.enum.foldl (taskStep pfx) result
  let result := item.Content.enum.foldl (blockStep pfx) result
  (result, acc1.2)

/-- One iteration of the Go `depends_on` reference loop. -/
def depStep (itemIDs : List String) (result : ValidationResult) (p : Nat × Item) : ValidationResult :=
  p.2.DependsOn.foldl (fun res dep =>
    if itemIDs.contains dep then res
    else res.addError ("items[" ++ toString p.1 ++ "].depends_on")
      ("references unknown item: " ++ dep)) result

/-- One iteration of the Go area validation loop. -/
def areaStep (acc : ValidationResult × List String) (p : Nat × Area) : ValidationResult × List String :=
  let pfx := "areas[" ++ toString p.1 ++ "]"
  let acc1 :=
    if p.2.ID = "" then (acc.1.addError (pfx ++ ".id") "required field is missing", acc.2)
    else if acc.2.contains p.2.ID then
      (acc.1.addError (pfx ++ ".id") ("duplicate ID: " ++ p.2.ID), acc.2)
    else (acc.1, acc.2 ++ [p.2.ID])
  let result :=
    if p.2.Name = "" then acc1.1.addError (pfx ++ ".name") "required field is missing"
    else acc1.1
  (result, acc1.2)

/-- One iteration of the Go phase validation loop. -/
def phaseStep (acc : ValidationResult × List String) (p : Nat × Phase) : ValidationResult × List String :=
  let pfx := "phases[" ++ toString p.1 ++ "]"
  let acc1 :=
    if p.2.ID = "" then (acc.1.addError (pfx ++ ".id") "required field is missing", acc.2)
    else if acc.2.contains p.2.ID then
      (acc.1.addError (pfx ++ ".id") ("duplicate ID: " ++ p.2.ID), acc.2)
    else (acc.1, acc.2 ++ [p.2.ID])
  let result :=
    if p.2.Name = "" then acc1.1.addError (pfx ++ ".name") "required field is missing"
    else acc1.1
  let result :=
    if p.2.Status ≠ "" ∧ isValidStatus p.2.Status = false then
      result.addError (pfx ++ ".status") ("invalid status: " ++ p.2.Status)
    else result
  (result, acc1.2)

/-- One iteration of the Go item area/phase reference loop, gated on the
owning collection being non-empty. -/
def refStep (r : Roadmap) (areaIDs phaseIDs : List String) (result : ValidationResult)
    (p : Nat × Item) : ValidationResult :=
  let result :=
    if p.2.Area ≠ "" ∧ r.Areas.length > 0 ∧ areaIDs.contains p.2.Area = false then
      result.addError ("items[" ++ toString p.1 ++ "].area")
        ("references unknown area: " ++ p.2.Area)
    else result
  if p.2.Phase ≠ "" ∧ r.Phases.length > 0 ∧ phaseIDs.contains p.2.Phase = false then
    result.addError ("items[" ++ toString p.1 ++ "].phase")
      ("references unknown phase: " ++ p.2.Phase)
  else result

/-- One iteration of the Go section validation loop. -/
def sectionStep (acc : ValidationResult × List String) (p : Nat × Section) : ValidationResult × List String :=
  let pfx := "sections[" ++ toString p.1 ++ "]"
  let acc1 :=
    if p.2.ID = "" then (acc.1.addError (pfx ++ ".id") "required field is missing", acc.2)
    else if acc.2.contains p.2.ID then
      (acc.1.addError (pfx ++ ".id") ("duplicate ID: " ++ p.2.ID), acc.2)
    else (acc.1, acc.2 ++ [p.2.ID])
  let result :=
    if p.2.Title = "" then acc1.1.addError (pfx ++ ".title") "required field is missing"
    else acc1.1
  let result := p.2.Content.enum.foldl (blockStep pfx) result
  (result, acc1.2)

/-- Go `Validate`: the full pass structure of the source, in source order —
root fields, items (collecting the id set), depends_on references, areas,
phases, item area/phase references, sections. `reg` is the external
change-type registry capability. -/
def Validate (reg : String → Bool) (r : Roadmap) : ValidationResult :=
  let result : ValidationResult := { Valid := true, Errors := [] }
  let result :=
    if r.IRVersion = "" then result.addError "ir_version" "required field is missing"
    else if r.IRVersion ≠ "1.0" then
      result.addError "ir_version" ("unsupported version: " ++ r.IRVersion)
    else result
  let result :=
    if r.Project = "" then result.addError "project" "required field is missing"
    else result
  let acc := r.Items.enum.foldl (validateItemStep reg) (result, [])
  let result := acc.1
  let itemIDs := acc.2
  let result := r.Items.enum.foldl (depStep itemIDs) result
  let accA := r.Areas.enum.foldl areaStep (result, [])
  let result := accA.1
  let areaIDs := accA.2
  let accP := r.Phases.enum.foldl phaseStep (result, [])
  let result := accP.1
  let phaseIDs := accP.2
  let result := r.Items.enum.foldl (refStep r areaIDs phaseIDs) result
  let accS := r.Sections.enum.foldl sectionStep (result, [])
  accS.1

/-!
Derived error-list views of `Validate`, used to state and prove the
traversal-order contract: each pass of the imperative loop is re-expressed
as the list of errors it appends, in the order it appends them. These
definitions are proved equal to the corresponding components of `Validate`
below; they are views for the proofs, not a second implementation.
-/

/-- Errors of the root-field pass, in emission order. -/
def errsRoot (r : Roadmap) : List ValidationError :=
  (if r.IRVersion = "" then [⟨"ir_version", "required field is missing"⟩]
   else if r.IRVersion ≠ "1.0" then [⟨"ir_version", "unsupported version: " ++ r.IRVersion⟩]
   else [])
  ++ (if r.Project = "" then [⟨"project", "required field is missing"⟩] else [])

/-- How one id is folded into the collected id set (empty ids and already
seen ids are not added). -/
def idsStep (ids : List String) (id : String) : List String :=
  if id = "" then ids else if ids.contains id then ids else ids ++ [id]

/-- The id set after folding a whole indexed list. -/
def idsAfter {α : Type} (idOf : α → String) (l : List (Nat × α)) (ids : List String) : List String :=
  l.foldl (fun ids p => idsStep ids (idOf p.2)) ids

/-- Errors emitted for one task of an item. -/
def taskErrs (pfx : String) (p : Nat × Task) : List ValidationError :=
  if p.2.Description = "" then
    [⟨pfx ++ ".tasks[" ++ toString p.1 ++ "].description", "required field is missing"⟩]
  else []

/-- Errors emitted for one content block (of an item or of a section). -/
def blockErrs (pfx : String) (p : Nat × ContentBlock) : List ValidationError :=
  (validateContentBlock p.2 (pfx ++ ".content[" ++ toString p.1 ++ "]")).toList

/-- Errors emitted for one item in the per-item pass, given the id set
collected so far — id, title, status, target_quarter, type, tasks, content,
in source order. -/
def errsItemOwn (reg : String → Bool) (ids : List String) (p : Nat × Item) : List ValidationError :=
  let item := p.2
  let pfx := "items[" ++ toString p.1 ++ "]"
  (if item.ID = "" then [⟨pfx ++ ".id", "required field is missing"⟩]
   else if ids.contains item.ID then [⟨pfx ++ ".id", "duplicate ID: " ++ item.ID⟩]
   else [])
  ++ (if item.Title = "" then [⟨pfx ++ ".title", "required field is missing"⟩] else [])
  ++ (if item.Status = "" then [⟨pfx ++ ".status", "required field is missing"⟩]
      else if isValidStatus item.Status = false then
        [⟨pfx ++ ".status", "invalid status: " ++ item.Status⟩]
      else [])
  ++ (if item.TargetQuarter ≠ "" ∧ isValidQuarter item.TargetQuarter = false then
        [⟨pfx ++ ".target_quarter", "invalid format: " ++ item.TargetQuarter ++ " (expected 'Q1 2026')"⟩]
      else [])
  ++ (if item.Type' ≠ "" ∧ reg item.Type' = false then
        [⟨pfx ++ ".type", "invalid change type: " ++ item.Type' ++ " (see structured-changelog for valid types)"⟩]
      else [])
  ++ item.Tasks.enum.flatMap (taskErrs pfx)
  ++ item.Content.enum.flatMap (blockErrs pfx)

/-- Errors of the whole per-item pass, threading the collected id set. -/
def errsItems (reg : String → Bool) : List (Nat × Item) → List String → List ValidationError
  | [], _ => []
  | p :: l, ids => errsItemOwn reg ids p ++ errsItems reg l (idsStep ids p.2.ID)

/-- Errors emitted for one item's depends_on entries. -/
def depErrs (itemIDs : List String) (p : Nat × Item) : List ValidationError :=
  p.2.DependsOn.flatMap (fun dep =>
    if itemIDs.contains dep then []
    else [⟨"items[" ++ toString p.1 ++ "].depends_on", "references unknown item: " ++ dep⟩])

/-- Errors of the depends_on reference pass. -/
def errsDeps (itemIDs : List String) (l : List (Nat × Item)) : List ValidationError :=
  l.flatMap (depErrs itemIDs)

/-- Errors emitted for one area, given the area-id set so far. -/
def errsAreaOwn (ids : List String) (p : Nat × Area) : List ValidationError :=
  let pfx := "areas[" ++ toString p.1 ++ "]"
  (if p.2.ID = "" then [⟨pfx ++ ".id", "required field is missing"⟩]
   else if ids.contains p.2.ID then [⟨pfx ++ ".id", "duplicate ID: " ++ p.2.ID⟩]
   else [])
  ++ (if p.2.Name = "" then [⟨pfx ++ ".name", "required field is missing"⟩] else [])

/-- Errors of the area pass. -/
def errsAreas : List (Nat × Area) → List String → List ValidationError
  | [], _ => []
  | p :: l, ids => errsAreaOwn ids p ++ errsAreas l (idsStep ids p.2.ID)

/-- Errors emitted for one phase, given the phase-id set so far. -/
def errsPhaseOwn (ids : List String) (p : Nat × Phase) : List ValidationError :=
  let pfx := "phases[" ++ toString p.1 ++ "]"
  (if p.2.ID = "" then [⟨pfx ++ ".id", "required field is missing"⟩]
   else if ids.contains p.2.ID then [⟨pfx ++ ".id", "duplicate ID: " ++ p.2.ID⟩]
   else [])
  ++ (if p.2.Name = "" then [⟨pfx ++ ".name", "required field is missing"⟩] else [])
  ++ (if p.2.Status ≠ "" ∧ isValidStatus p.2.Status = false then
        [⟨pfx ++ ".status", "invalid status: " ++ p.2.Status⟩]
      else [])

/-- Errors of the phase pass. -/
def errsPhases : List (Nat × Phase) → List String → List ValidationError
  | [], _ => []
  | p :: l, ids => errsPhaseOwn ids p ++ errsPhases l (idsStep ids p.2.ID)

/-- Errors emitted for one item in the area/phase reference pass. -/
def errsRefOwn (r : Roadmap) (areaIDs phaseIDs : List String) (p : Nat × Item) : List ValidationError :=
  (if p.2.Area ≠ "" ∧ r.Areas.length > 0 ∧ areaIDs.contains p.2.Area = false then
     [⟨"items[" ++ toString p.1 ++ "].area", "references unknown area: " ++ p.2.Area⟩]
   else [])
  ++ (if p.2.Phase ≠ "" ∧ r.Phases.length > 0 ∧ phaseIDs.contains p.2.Phase = false then
        [⟨"items[" ++ toString p.1 ++ "].phase", "references unknown phase: " ++ p.2.Phase⟩]
      else [])

/-- Errors of the area/phase reference pass. -/
def errsRefs (r : Roadmap) (areaIDs phaseIDs : List String) (l : List (Nat × Item)) : List ValidationError :=
  l.flatMap (errsRefOwn r areaIDs phaseIDs)

/-- Errors emitted for one section, given the section-id set so far. -/
def errsSectionOwn (ids : List String) (p : Nat × Section) : List ValidationError :=
  let pfx := "sections[" ++ toString p.1 ++ "]"
  (if p.2.ID = "" then [⟨pfx ++ ".id", "required field is missing"⟩]
   else if ids.contains p.2.ID then [⟨pfx ++ ".id", "duplicate ID: " ++ p.2.ID⟩]
   else [])
  ++ (if p.2.Title = "" then [⟨pfx ++ ".title", "required field is missing"⟩] else [])
  ++ p.2.Content.enum.flatMap (blockErrs pfx)

/-- Errors of the section pass. -/
def errsSections : List (Nat × Section) → List String → List ValidationError
  | [], _ => []
  | p :: l, ids => errsSectionOwn ids p ++ errsSections l (idsStep ids p.2.ID)

/-- The item-id set `Validate` has collected before the reference pass. -/
def itemIDsOf (r : Roadmap) : List String :=
  idsAfter Item.ID r.Items.enum []

/-- The area-id set collected by the area pass. -/
def areaIDsOf (r : Roadmap) : List String :=
  idsAfter Area.ID r.Areas.enum []

/-- The phase-id set collected by the phase pass. -/
def phaseIDsOf (r : Roadmap) : List String :=
  idsAfter Phase.ID r.Phases.enum []

/-- The full error list of `Validate`, pass by pass, in the traversal order
of the source: root fields, items in document order, depends_on references,
areas, phases, item area/phase references, sections. -/
def validateErrors (reg : String → Bool) (r : Roadmap) : List ValidationError :=
  errsRoot r
  ++ errsItems reg r.Items.enum []
  ++ errsDeps (itemIDsOf r) r.Items.enum
  ++ errsAreas r.Areas.enum []
  ++ errsPhases r.Phases.enum []
  ++ errsRefs r (areaIDsOf r) (phaseIDsOf r) r.Items.enum
  ++ errsSections r.Sections.enum []

/-- Grouping key used by `ItemsByArea`. -/
def areaKey (item : Item) : String :=
  if item.Area = "" then "_unspecified" else item.Area

/-- Grouping key used by `ItemsByType`. -/
def typeKey (item : Item) : String :=
  if item.Type' = "" then "_unspecified" else item.Type'

/-- Grouping key used by `ItemsByPhase`. -/
def phaseKey (item : Item) : String :=
  if item.Phase = "" then "_unphased" else item.Phase

/-- Grouping key used by `ItemsByStatus` (no sentinel: the raw status). -/
def statusKey (item : Item) : Status :=
  item.Status

/-- Grouping key used by `ItemsByQuarter`. -/
def quarterKey (item : Item) : String :=
  if item.TargetQuarter = "" then "_unscheduled" else item.TargetQuarter

/-- Grouping key used by `ItemsByPriority`. -/
def priorityKey (item : Item) : Priority :=
  if item.Priority = "" then "_unspecified" else item.Priority

/-- Decidable marker for the duplicate-item-id errors of a given id: the
exact duplicate message for `s`, on a field path that starts with `i`
(item paths `items[..].id` — the other duplicate-id sites are `areas[..]`,
`phases[..]`, `sections[..]`). -/
def dupItemPred (s : String) (e : ValidationError) : Bool :=
  (e.Message == "duplicate ID: " ++ s) && (e.Field.data.head? == some 'i')

/-- The invariant of `ValidationResult` maintained by `Validate`: the flag
equals emptiness of the collected error list. -/
def resultInv (res : ValidationResult) : Prop :=
  res.Valid = res.Errors.isEmpty

/-- A registry accepting every name, used to instantiate witnesses. -/
def regAll : String → Bool := fun _ => true

/-- Concrete input: two items sharing one id. -/
def rDup : Roadmap :=
  { IRVersion := "1.0", Project := "p",
    Items := [{ ID := "item-1", Title := "t", Status := "completed" },
              { ID := "item-1", Title := "t", Status := "completed" }] }

/-- Concrete input: an item area reference with a non-matching area list. -/
def rGate : Roadmap :=
  { IRVersion := "1.0", Project := "p",
    Areas := [{ ID := "other", Name := "o" }],
    Items := [{ ID := "a", Title := "t", Status := "completed", Area := "core" }] }

/-- Concrete input: an item with an empty id and an empty depends_on entry;
the empty id is never collected, so the reference `""` cannot resolve even
though it equals the item's id field. -/
def rDepEmpty : Roadmap :=
  { IRVersion := "1.0", Project := "p",
    Items := [{ ID := "", Title := "t", Status := "completed", DependsOn := [""] }] }

/-- Concrete input: a document legend that defines an entry outside the
4-status enumeration. -/
def rLegendX : Roadmap :=
  { Legend := [("weird", { Emoji := "X", Description := "odd" })] }

/-- Concrete input: one item with a bad quarter, plus grouping samples. -/
def rQuarter : Roadmap :=
  { IRVersion := "1.0", Project := "p",
    Items := [{ ID := "a", Title := "t", Status := "completed", TargetQuarter := "2026-Q2" }] }

/-- Concrete input for grouping witnesses: two items, one without area,
type, phase, quarter and priority. -/
def rGroup : Roadmap :=
  { IRVersion := "1.0", Project := "p",
    Items := [{ ID := "a", Title := "t", Status := "completed", Area := "core",
                Type' := "Added", Phase := "phase-1", TargetQuarter := "Q1 2026",
                Priority := "high" },
              { ID := "b", Title := "t", Status := "planned" }] }

/-- The message shapes of the non-reference validation errors, used to
separate passes when reading an error back out of the flat list. -/
def plainMsg (e : ValidationError) : Prop :=
  e.Message = "required field is missing" ∨
  (∃ x, e.Message = "unsupported version: " ++ x) ∨
  (∃ x, e.Message = "duplicate ID: " ++ x) ∨
  (∃ x, e.Message = "invalid status: " ++ x) ∨
  (∃ x, e.Message = "invalid format: " ++ x) ∨
  (∃ x, e.Message = "invalid change type: " ++ x) ∨
  (∃ x, e.Message = "required for type " ++ x) ∨
  (∃ x, e.Message = "unknown type: " ++ x)

lemma contains_iff_mem (l : List String) (s : String) : l.contains s = true ↔ s ∈ l :=
  List.elem_iff

lemma foldl_errs {β : Type} (f : ValidationResult → β → ValidationResult)
    (g : β → List ValidationError)
    (hf : ∀ res b, (f res b).Errors = res.Errors ++ g b) :
    ∀ (l : List β) (res : ValidationResult),
      (l.foldl f res).Errors = res.Errors ++ l.flatMap g := by
  intro l
  induction l with
  | nil => intro res; simp
  | cons b t ih =>
    intro res
    simp only [List.foldl_cons, List.flatMap_cons, ih, hf, List.append_assoc]

lemma ite_addError_errors (c : Prop) [Decidable c] (res : ValidationResult) (f m : String) :
    (if c then res.addError f m else res).Errors = res.Errors ++ (if c then [⟨f, m⟩] else []) := by
  split <;> simp [ValidationResult.addError]

lemma ite_skip_addError_errors (c : Prop) [Decidable c] (res : ValidationResult) (f m : String) :
    (if c then res else res.addError f m).Errors = res.Errors ++ (if c then [] else [⟨f, m⟩]) := by
  split <;> simp [ValidationResult.addError]

lemma ite2_addError_errors (c1 c2 : Prop) [Decidable c1] [Decidable c2]
    (res : ValidationResult) (f1 m1 f2 m2 : String) :
    (if c1 then res.addError f1 m1 else if c2 then res.addError f2 m2 else res).Errors
      = res.Errors ++ (if c1 then [⟨f1, m1⟩] else if c2 then [⟨f2, m2⟩] else []) := by
  split_ifs <;> simp [ValidationResult.addError]

lemma idStage_errors (c1 c2 : Prop) [Decidable c1] [Decidable c2]
    (res : ValidationResult) (ids ids2 : List String) (f1 m1 f2 m2 : String) :
    ((if c1 then (res.addError f1 m1, ids) else if c2 then (res.addError f2 m2, ids)
      else (res, ids2)).1).Errors
      = res.Errors ++ (if c1 then [⟨f1, m1⟩] else if c2 then [⟨f2, m2⟩] else []) := by
  split_ifs <;> simp [ValidationResult.addError]

lemma idStage_snd (c1 c2 : Prop) [Decidable c1] [Decidable c2]
    (res : ValidationResult) (ids ids2 : List String) (f1 m1 f2 m2 : String) :
    ((if c1 then (res.addError f1 m1, ids) else if c2 then (res.addError f2 m2, ids)
      else (res, ids2)).2)
      = if c1 then ids else if c2 then ids else ids2 := by
  split_ifs <;> rfl

lemma taskStep_spec (pfx : String) (res : ValidationResult) (p : Nat × Task) :
    (taskStep pfx res p).Errors = res.Errors ++ taskErrs pfx p := by
  simp only [taskStep, taskErrs]
  split <;> simp [ValidationResult.addError]

lemma blockStep_spec (pfx : String) (res : ValidationResult) (p : Nat × ContentBlock) :
    (blockStep pfx res p).Errors = res.Errors ++ blockErrs pfx p := by
  simp only [blockStep, blockErrs]
  cases validateContentBlock p.2 (pfx ++ ".content[" ++ toString p.1 ++ "]") <;> simp

lemma validateItemStep_spec (reg : String → Bool) (res : ValidationResult)
    (ids : List String) (p : Nat × Item) :
    (validateItemStep reg (res, ids) p).1.Errors = res.Errors ++ errsItemOwn reg ids p ∧
    (validateItemStep reg (res, ids) p).2 = idsStep ids p.2.ID := by
  constructor
  · simp only [validateItemStep, errsItemOwn]
    rw [foldl_errs (blockStep _) (blockErrs _) (fun r b => blockStep_spec _ r b)]
    rw [foldl_errs (taskStep _) (taskErrs _) (fun r b => taskStep_spec _ r b)]
    rw [ite_addError_errors, ite_addError_errors, ite2_addError_errors,
      ite_addError_errors, idStage_errors]
    simp [List.append_assoc]
  · simp only [validateItemStep, idsStep]
    rw [idStage_snd]

lemma depStep_spec (itemIDs : List String) (res : ValidationResult) (p : Nat × Item) :
    (depStep itemIDs res p).Errors = res.Errors ++ depErrs itemIDs p := by
  simp only [depStep, depErrs]
  rw [foldl_errs _ (fun dep => if itemIDs.contains dep then []
      else [⟨"items[" ++ toString p.1 ++ "].depends_on", "references unknown item: " ++ dep⟩])]
  intro r dep
  rw [ite_skip_addError_errors]

lemma areaStep_spec (acc : ValidationResult × List String) (p : Nat × Area) :
    (areaStep acc p).1.Errors = acc.1.Errors ++ errsAreaOwn acc.2 p ∧
    (areaStep acc p).2 = idsStep acc.2 p.2.ID := by
  constructor
  · simp only [areaStep, errsAreaOwn]
    rw [ite_addError_errors, idStage_errors]
    simp [List.append_assoc]
  · simp only [areaStep, idsStep]
    rw [idStage_snd]

lemma phaseStep_spec (acc : ValidationResult × List String) (p : Nat × Phase) :
    (phaseStep acc p).1.Errors = acc.1.Errors ++ errsPhaseOwn acc.2 p ∧
    (phaseStep acc p).2 = idsStep acc.2 p.2.ID := by
  constructor
  · simp only [phaseStep, errsPhaseOwn]
    rw [ite_addError_errors, ite_addError_errors, idStage_errors]
    simp [List.append_assoc]
  · simp only [phaseStep, idsStep]
    rw [idStage_snd]

lemma refStep_spec (r : Roadmap) (areaIDs phaseIDs : List String)
    (res : ValidationResult) (p : Nat × Item) :
    (refStep r areaIDs phaseIDs res p).Errors = res.Errors ++ errsRefOwn r areaIDs phaseIDs p := by
  simp only [refStep, errsRefOwn]
  rw [ite_addError_errors, ite_addError_errors]
  simp [List.append_assoc]

lemma sectionStep_spec (acc : ValidationResult × List String) (p : Nat × Section) :
    (sectionStep acc p).1.Errors = acc.1.Errors ++ errsSectionOwn acc.2 p ∧
    (sectionStep acc p).2 = idsStep acc.2 p.2.ID := by
  constructor
  · simp only [sectionStep, errsSectionOwn]
    rw [foldl_errs (blockStep _) (blockErrs _) (fun r b => blockStep_spec _ r b)]
    rw [ite_addError_errors, idStage_errors]
    simp [List.append_assoc]
  · simp only [sectionStep, idsStep]
    rw [idStage_snd]

lemma foldl_pair_spec {β : Type}
    (f : (ValidationResult × List String) → β → (ValidationResult × List String))
    (gE : List String → β → List ValidationError) (idOf : β → String)
    (E : List β → List String → List ValidationError)
    (hnil : ∀ ids, E [] ids = [])
    (hcons : ∀ b l ids, E (b :: l) ids = gE ids b ++ E l (idsStep ids (idOf b)))
    (hf : ∀ res ids b, (f (res, ids) b).1.Errors = res.Errors ++ gE ids b ∧
      (f (res, ids) b).2 = idsStep ids (idOf b)) :
    ∀ (l : List β) (res : ValidationResult) (ids : List String),
      (l.foldl f (res, ids)).1.Errors = res.Errors ++ E l ids ∧
      (l.foldl f (res, ids)).2 = l.foldl (fun ids b => idsStep ids (idOf b)) ids := by
  intro l
  induction l with
  | nil => intro res ids; simp [hnil]
  | cons b t ih =>
    intro res ids
    have h1 := hf res ids b
    rcases hx : f (res, ids) b with ⟨r2, i2⟩
    rw [hx] at h1
    simp only at h1
    rw [List.foldl_cons, hx, h1.2]
    have h2 := ih r2 (idsStep ids (idOf b))
    refine ⟨?_, h2.2⟩
    rw [h2.1, h1.1, hcons, List.append_assoc]

theorem validate_errors_decomp (reg : String → Bool) (r : Roadmap) :
    (Validate reg r).Errors = validateErrors reg r := by
  have hItems := foldl_pair_spec (validateItemStep reg) (errsItemOwn reg) (fun p => p.2.ID)
    (errsItems reg) (fun _ => rfl) (fun _ _ _ => rfl) (validateItemStep_spec reg)
  have hAreas := foldl_pair_spec areaStep errsAreaOwn (fun p => p.2.ID) errsAreas
    (fun _ => rfl) (fun _ _ _ => rfl) (fun res ids b => areaStep_spec (res, ids) b)
  have hPhases := foldl_pair_spec phaseStep errsPhaseOwn (fun p => p.2.ID) errsPhases
    (fun _ => rfl) (fun _ _ _ => rfl) (fun res ids b => phaseStep_spec (res, ids) b)
  have hSections := foldl_pair_spec sectionStep errsSectionOwn (fun p => p.2.ID) errsSections
    (fun _ => rfl) (fun _ _ _ => rfl) (fun res ids b => sectionStep_spec (res, ids) b)
  simp only [Validate]
  rw [(hSections r.Sections.enum _ []).1]
  rw [foldl_errs _ _ (fun res b => refStep_spec r _ _ res b) r.Items.enum]
  rw [(hPhases r.Phases.enum _ []).1]
  rw [(hAreas r.Areas.enum _ []).1]
  rw [foldl_errs _ _ (fun res b => depStep_spec _ res b) r.Items.enum]
  rw [(hItems r.Items.enum _ []).1]
  rw [(hItems r.Items.enum _ []).2]
  rw [(hAreas r.Areas.enum _ []).2]
  rw [(hPhases r.Phases.enum _ []).2]
  rw [ite_addError_errors, ite2_addError_errors]
  simp only [validateErrors, errsRoot, errsDeps, errsRefs, itemIDsOf, areaIDsOf, phaseIDsOf,
    idsAfter, List.nil_append, List.append_assoc]

lemma resultInv_addError (res : ValidationResult) (f m : String) :
    resultInv (res.addError f m) := by
  simp [resultInv, ValidationResult.addError]

lemma foldl_preserve {σ β : Type} (f : σ → β → σ) (P : σ → Prop)
    (hf : ∀ s b, P s → P (f s b)) :
    ∀ (l : List β) (s : σ), P s → P (l.foldl f s) := by
  intro l
  induction l with
  | nil => intro s h; exact h
  | cons b t ih => intro s h; exact ih (f s b) (hf s b h)

lemma resultInv_ite_add (c : Prop) [Decidable c] (res : ValidationResult) (f m : String)
    (h : resultInv res) : resultInv (if c then res.addError f m else res) := by
  split
  · exact resultInv_addError res f m
  · exact h

lemma resultInv_ite_skip_add (c : Prop) [Decidable c] (res : ValidationResult) (f m : String)
    (h : resultInv res) : resultInv (if c then res else res.addError f m) := by
  split
  · exact h
  · exact resultInv_addError res f m

lemma resultInv_ite2_add (c1 c2 : Prop) [Decidable c1] [Decidable c2]
    (res : ValidationResult) (f1 m1 f2 m2 : String) (h : resultInv res) :
    resultInv (if c1 then res.addError f1 m1 else if c2 then res.addError f2 m2 else res) := by
  split_ifs
  · exact resultInv_addError res f1 m1
  · exact resultInv_addError res f2 m2
  · exact h

lemma resultInv_idStage (c1 c2 : Prop) [Decidable c1] [Decidable c2]
    (res : ValidationResult) (ids ids2 : List String) (f1 m1 f2 m2 : String)
    (h : resultInv res) :
    resultInv ((if c1 then (res.addError f1 m1, ids) else if c2 then (res.addError f2 m2, ids)
      else (res, ids2)).1) := by
  split_ifs
  · exact resultInv_addError res f1 m1
  · exact resultInv_addError res f2 m2
  · exact h

lemma resultInv_taskStep (pfx : String) (res : ValidationResult) (p : Nat × Task)
    (h : resultInv res) : resultInv (taskStep pfx res p) := by
  simp only [taskStep]
  split
  · exact resultInv_addError _ _ _
  · exact h

lemma resultInv_blockStep (pfx : String) (res : ValidationResult) (p : Nat × ContentBlock)
    (h : resultInv res) : resultInv (blockStep pfx res p) := by
  simp only [blockStep]
  split
  · simp [resultInv]
  · exact h

lemma resultInv_validateItemStep (reg : String → Bool) (acc : ValidationResult × List String)
    (p : Nat × Item) (h : resultInv acc.1) : resultInv (validateItemStep reg acc p).1 := by
  simp only [validateItemStep]
  apply foldl_preserve _ resultInv (fun s b => resultInv_blockStep _ s b)
  apply foldl_preserve _ resultInv (fun s b => resultInv_taskStep _ s b)
  apply resultInv_ite_add
  apply resultInv_ite_add
  apply resultInv_ite2_add
  apply resultInv_ite_add
  exact resultInv_idStage _ _ _ _ _ _ _ _ _ h

lemma resultInv_depStep (itemIDs : List String) (res : ValidationResult) (p : Nat × Item)
    (h : resultInv res) : resultInv (depStep itemIDs res p) := by
  simp only [depStep]
  apply foldl_preserve _ resultInv _ _ _ h
  intro s dep hs
  exact resultInv_ite_skip_add _ _ _ _ hs

lemma resultInv_areaStep (acc : ValidationResult × List String) (p : Nat × Area)
    (h : resultInv acc.1) : resultInv (areaStep acc p).1 := by
  simp only [areaStep]
  apply resultInv_ite_add
  exact resultInv_idStage _ _ _ _ _ _ _ _ _ h

lemma resultInv_phaseStep (acc : ValidationResult × List String) (p : Nat × Phase)
    (h : resultInv acc.1) : resultInv (phaseStep acc p).1 := by
  simp only [phaseStep]
  apply resultInv_ite_add
  apply resultInv_ite_add
  exact resultInv_idStage _ _ _ _ _ _ _ _ _ h

lemma resultInv_refStep (r : Roadmap) (areaIDs phaseIDs : List String)
    (res : ValidationResult) (p : Nat × Item) (h : resultInv res) :
    resultInv (refStep r areaIDs phaseIDs res p) := by
  simp only [refStep]
  apply resultInv_ite_add
  exact resultInv_ite_add _ _ _ _ h

lemma resultInv_sectionStep (acc : ValidationResult × List String) (p : Nat × Section)
    (h : resultInv acc.1) : resultInv (sectionStep acc p).1 := by
  simp only [sectionStep]
  apply foldl_preserve _ resultInv (fun s b => resultInv_blockStep _ s b)
  apply resultInv_ite_add
  exact resultInv_idStage _ _ _ _ _ _ _ _ _ h

lemma validate_resultInv (reg : String → Bool) (r : Roadmap) : resultInv (Validate reg r) := by
  simp only [Validate]
  apply foldl_preserve sectionStep (fun acc => resultInv acc.1)
    (fun s b hs => resultInv_sectionStep s b hs)
  apply foldl_preserve (refStep r _ _) resultInv (fun s b hs => resultInv_refStep r _ _ s b hs)
  apply foldl_preserve phaseStep (fun acc => resultInv acc.1)
    (fun s b hs => resultInv_phaseStep s b hs)
  apply foldl_preserve areaStep (fun acc => resultInv acc.1)
    (fun s b hs => resultInv_areaStep s b hs)
  apply foldl_preserve (depStep _) resultInv (fun s b hs => resultInv_depStep _ s b hs)
  apply foldl_preserve (validateItemStep reg) (fun acc => resultInv acc.1)
    (fun s b hs => resultInv_validateItemStep reg s b hs)
  apply resultInv_ite_add
  apply resultInv_ite2_add
  rfl

lemma mem_ite_singleton {α : Type} (c : Prop) [Decidable c] (e a : α) :
    e ∈ (if c then [a] else []) ↔ c ∧ e = a := by
  by_cases h : c <;> simp [h]

lemma mem_ite2_singleton {α : Type} (c1 c2 : Prop) [Decidable c1] [Decidable c2] (e a b : α) :
    e ∈ (if c1 then [a] else if c2 then [b] else []) ↔
      (c1 ∧ e = a) ∨ (¬c1 ∧ c2 ∧ e = b) := by
  by_cases h1 : c1 <;> by_cases h2 : c2 <;> simp [h1, h2]

lemma mem_ite_nil_singleton {α : Type} (c : Prop) [Decidable c] (e a : α) :
    e ∈ (if c then [] else [a]) ↔ ¬c ∧ e = a := by
  by_cases h : c <;> simp [h]

lemma contains_idsStep (ids : List String) (x s : String) :
    (idsStep ids x).contains s = true ↔ ids.contains s = true ∨ (x = s ∧ x ≠ "") := by
  simp only [idsStep]
  split_ifs with h1 h2
  · subst h1; simp
  · constructor
    · exact Or.inl
    · rintro (h | ⟨rfl, h⟩)
      · exact h
      · exact h2
  · simp only [contains_iff_mem, List.mem_append, List.mem_singleton]
    constructor
    · rintro (h | rfl)
      · exact Or.inl h
      · exact Or.inr ⟨rfl, h1⟩
    · rintro (h | ⟨rfl, h⟩)
      · exact Or.inl h
      · exact Or.inr rfl

lemma contains_idsAfter {α : Type} (idOf : α → String) (s : String) :
    ∀ (l : List (Nat × α)) (ids : List String),
      (idsAfter idOf l ids).contains s = true ↔
        ids.contains s = true ∨ (s ≠ "" ∧ ∃ p ∈ l, idOf p.2 = s) := by
  intro l
  induction l with
  | nil => intro ids; simp [idsAfter]
  | cons p t ih =>
    intro ids
    have hstep : idsAfter idOf (p :: t) ids = idsAfter idOf t (idsStep ids (idOf p.2)) := rfl
    rw [hstep, ih, contains_idsStep]
    constructor
    · rintro ((h | ⟨h1, h2⟩) | ⟨hs, q, hq, hqs⟩)
      · exact Or.inl h
      · exact Or.inr ⟨h1 ▸ h2, p, List.mem_cons_self p t, h1⟩
      · exact Or.inr ⟨hs, q, List.mem_cons_of_mem p hq, hqs⟩
    · rintro (h | ⟨hs, q, hq, hqs⟩)
      · exact Or.inl (Or.inl h)
      · rcases List.mem_cons.mp hq with rfl | hq'
        · exact Or.inl (Or.inr ⟨hqs, hqs ▸ hs⟩)
        · exact Or.inr ⟨hs, q, hq', hqs⟩

lemma mem_enumFrom_get {α : Type} :
    ∀ (l : List α) (n i : Nat) (h : i < l.length),
      (n + i, l.get ⟨i, h⟩) ∈ List.enumFrom n l := by
  intro l
  induction l with
  | nil => intro n i h; simp at h
  | cons a t ih =>
    intro n i h
    cases i with
    | zero => simp [List.enumFrom_cons]
    | succ j =>
      rw [List.enumFrom_cons]
      refine List.mem_cons_of_mem _ ?_
      have hj : j < t.length := Nat.lt_of_succ_lt_succ h
      have he : n + (j + 1) = (n + 1) + j := by omega
      have := ih (n + 1) j hj
      simpa [he] using this

lemma mem_enum_get {α : Type} (l : List α) (i : Nat) (h : i < l.length) :
    (i, l.get ⟨i, h⟩) ∈ l.enum := by
  have := mem_enumFrom_get l 0 i h
  simpa [List.enum] using this

lemma mem_snd_of_mem_enum {α : Type} {p : Nat × α} {l : List α} (h : p ∈ l.enum) : p.2 ∈ l := by
  have : p.2 ∈ l.enum.map Prod.snd := List.mem_map_of_mem Prod.snd h
  rwa [List.enum_map_snd] at this

lemma countP_enum {α : Type} (q : α → Bool) (l : List α) :
    l.enum.countP (fun p => q p.2) = l.countP q := by
  have h := List.countP_map q Prod.snd l.enum
  rw [List.enum_map_snd] at h
  exact h.symm

lemma mem_errsDeps (itemIDs : List String) (l : List (Nat × Item)) (e : ValidationError) :
    e ∈ errsDeps itemIDs l ↔ ∃ p ∈ l, ∃ dep ∈ p.2.DependsOn, ¬itemIDs.contains dep = true ∧
      e = ⟨"items[" ++ toString p.1 ++ "].depends_on", "references unknown item: " ++ dep⟩ := by
  simp only [errsDeps, depErrs, List.mem_flatMap, mem_ite_nil_singleton]

lemma mem_errsRefs (r : Roadmap) (areaIDs phaseIDs : List String) (l : List (Nat × Item))
    (e : ValidationError) :
    e ∈ errsRefs r areaIDs phaseIDs l ↔ ∃ p ∈ l,
      ((p.2.Area ≠ "" ∧ r.Areas.length > 0 ∧ areaIDs.contains p.2.Area = false) ∧
        e = ⟨"items[" ++ toString p.1 ++ "].area", "references unknown area: " ++ p.2.Area⟩) ∨
      ((p.2.Phase ≠ "" ∧ r.Phases.length > 0 ∧ phaseIDs.contains p.2.Phase = false) ∧
        e = ⟨"items[" ++ toString p.1 ++ "].phase", "references unknown phase: " ++ p.2.Phase⟩) := by
  simp only [errsRefs, errsRefOwn, List.mem_flatMap, List.mem_append, mem_ite_singleton]

lemma mem_errsItemOwn_iff (reg : String → Bool) (ids : List String) (p : Nat × Item)
    (e : ValidationError) :
    e ∈ errsItemOwn reg ids p ↔
      (p.2.ID = "" ∧
        e = ⟨"items[" ++ toString p.1 ++ "]" ++ ".id", "required field is missing"⟩) ∨
      (¬p.2.ID = "" ∧ ids.contains p.2.ID = true ∧
        e = ⟨"items[" ++ toString p.1 ++ "]" ++ ".id", "duplicate ID: " ++ p.2.ID⟩) ∨
      (p.2.Title = "" ∧
        e = ⟨"items[" ++ toString p.1 ++ "]" ++ ".title", "required field is missing"⟩) ∨
      (p.2.Status = "" ∧
        e = ⟨"items[" ++ toString p.1 ++ "]" ++ ".status", "required field is missing"⟩) ∨
      (¬p.2.Status = "" ∧ isValidStatus p.2.Status = false ∧
        e = ⟨"items[" ++ toString p.1 ++ "]" ++ ".status", "invalid status: " ++ p.2.Status⟩) ∨
      ((p.2.TargetQuarter ≠ "" ∧ isValidQuarter p.2.TargetQuarter = false) ∧
        e = ⟨"items[" ++ toString p.1 ++ "]" ++ ".target_quarter",
          "invalid format: " ++ p.2.TargetQuarter ++ " (expected 'Q1 2026')"⟩) ∨
      ((p.2.Type' ≠ "" ∧ reg p.2.Type' = false) ∧
        e = ⟨"items[" ++ toString p.1 ++ "]" ++ ".type",
          "invalid change type: " ++ p.2.Type' ++ " (see structured-changelog for valid types)"⟩) ∨
      (∃ q ∈ p.2.Tasks.enum, q.2.Description = "" ∧
        e = ⟨"items[" ++ toString p.1 ++ "]" ++ ".tasks[" ++ toString q.1 ++ "].description",
          "required field is missing"⟩) ∨
      (∃ q ∈ p.2.Content.enum, validateContentBlock q.2
        ("items[" ++ toString p.1 ++ "]" ++ ".content[" ++ toString q.1 ++ "]") = some e) := by
  simp only [errsItemOwn, List.mem_append, mem_ite_singleton, mem_ite2_singleton,
    List.mem_flatMap, taskErrs, blockErrs, Option.mem_toList, Option.mem_def,
    mem_ite_nil_singleton, or_assoc]

lemma mem_errsAreaOwn_iff (ids : List String) (p : Nat × Area) (e : ValidationError) :
    e ∈ errsAreaOwn ids p ↔
      (p.2.ID = "" ∧
        e = ⟨"areas[" ++ toString p.1 ++ "]" ++ ".id", "required field is missing"⟩) ∨
      (¬p.2.ID = "" ∧ ids.contains p.2.ID = true ∧
        e = ⟨"areas[" ++ toString p.1 ++ "]" ++ ".id", "duplicate ID: " ++ p.2.ID⟩) ∨
      (p.2.Name = "" ∧
        e = ⟨"areas[" ++ toString p.1 ++ "]" ++ ".name", "required field is missing"⟩) := by
  simp only [errsAreaOwn, List.mem_append, mem_ite_singleton, mem_ite2_singleton, or_assoc]

lemma mem_errsPhaseOwn_iff (ids : List String) (p : Nat × Phase) (e : ValidationError) :
    e ∈ errsPhaseOwn ids p ↔
      (p.2.ID = "" ∧
        e = ⟨"phases[" ++ toString p.1 ++ "]" ++ ".id", "required field is missing"⟩) ∨
      (¬p.2.ID = "" ∧ ids.contains p.2.ID = true ∧
        e = ⟨"phases[" ++ toString p.1 ++ "]" ++ ".id", "duplicate ID: " ++ p.2.ID⟩) ∨
      (p.2.Name = "" ∧
        e = ⟨"phases[" ++ toString p.1 ++ "]" ++ ".name", "required field is missing"⟩) ∨
      ((p.2.Status ≠ "" ∧ isValidStatus p.2.Status = false) ∧
        e = ⟨"phases[" ++ toString p.1 ++ "]" ++ ".status", "invalid status: " ++ p.2.Status⟩) := by
  simp only [errsPhaseOwn, List.mem_append, mem_ite_singleton, mem_ite2_singleton, or_assoc]

lemma mem_errsSectionOwn_iff (ids : List String) (p : Nat × Section) (e : ValidationError) :
    e ∈ errsSectionOwn ids p ↔
      (p.2.ID = "" ∧
        e = ⟨"sections[" ++ toString p.1 ++ "]" ++ ".id", "required field is missing"⟩) ∨
      (¬p.2.ID = "" ∧ ids.contains p.2.ID = true ∧
        e = ⟨"sections[" ++ toString p.1 ++ "]" ++ ".id", "duplicate ID: " ++ p.2.ID⟩) ∨
      (p.2.Title = "" ∧
        e = ⟨"sections[" ++ toString p.1 ++ "]" ++ ".title", "required field is missing"⟩) ∨
      (∃ q ∈ p.2.Content.enum, validateContentBlock q.2
        ("sections[" ++ toString p.1 ++ "]" ++ ".content[" ++ toString q.1 ++ "]") = some e) := by
  simp only [errsSectionOwn, List.mem_append, mem_ite_singleton, mem_ite2_singleton,
    List.mem_flatMap, blockErrs, Option.mem_toList, Option.mem_def, or_assoc]

lemma mem_errsItems {reg : String → Bool} {e : ValidationError} :
    ∀ {l : List (Nat × Item)} {ids : List String}, e ∈ errsItems reg l ids →
      ∃ p ∈ l, ∃ ids', e ∈ errsItemOwn reg ids' p := by
  intro l
  induction l with
  | nil => intro ids h; simp [errsItems] at h
  | cons p t ih =>
    intro ids h
    rcases List.mem_append.mp h with h | h
    · exact ⟨p, List.mem_cons_self p t, ids, h⟩
    · obtain ⟨q, hq, ids', h'⟩ := ih h
      exact ⟨q, List.mem_cons_of_mem p hq, ids', h'⟩

lemma mem_errsAreas {e : ValidationError} :
    ∀ {l : List (Nat × Area)} {ids : List String}, e ∈ errsAreas l ids →
      ∃ p ∈ l, ∃ ids', e ∈ errsAreaOwn ids' p := by
  intro l
  induction l with
  | nil => intro ids h; simp [errsAreas] at h
  | cons p t ih =>
    intro ids h
    rcases List.mem_append.mp h with h | h
    · exact ⟨p, List.mem_cons_self p t, ids, h⟩
    · obtain ⟨q, hq, ids', h'⟩ := ih h
      exact ⟨q, List.mem_cons_of_mem p hq, ids', h'⟩

lemma mem_errsPhases {e : ValidationError} :
    ∀ {l : List (Nat × Phase)} {ids : List String}, e ∈ errsPhases l ids →
      ∃ p ∈ l, ∃ ids', e ∈ errsPhaseOwn ids' p := by
  intro l
  induction l with
  | nil => intro ids h; simp [errsPhases] at h
  | cons p t ih =>
    intro ids h
    rcases List.mem_append.mp h with h | h
    · exact ⟨p, List.mem_cons_self p t, ids, h⟩
    · obtain ⟨q, hq, ids', h'⟩ := ih h
      exact ⟨q, List.mem_cons_of_mem p hq, ids', h'⟩

lemma mem_errsSections {e : ValidationError} :
    ∀ {l : List (Nat × Section)} {ids : List String}, e ∈ errsSections l ids →
      ∃ p ∈ l, ∃ ids', e ∈ errsSectionOwn ids' p := by
  intro l
  induction l with
  | nil => intro ids h; simp [errsSections] at h
  | cons p t ih =>
    intro ids h
    rcases List.mem_append.mp h with h | h
    · exact ⟨p, List.mem_cons_self p t, ids, h⟩
    · obtain ⟨q, hq, ids', h'⟩ := ih h
      exact ⟨q, List.mem_cons_of_mem p hq, ids', h'⟩

lemma mem_errsItems_of_own {reg : String → Bool} {e : ValidationError} {p : Nat × Item}
    (hall : ∀ ids', e ∈ errsItemOwn reg ids' p) :
    ∀ (l : List (Nat × Item)) (ids : List String), p ∈ l → e ∈ errsItems reg l ids := by
  intro l
  induction l with
  | nil => intro ids h; simp at h
  | cons q t ih =>
    intro ids h
    rcases List.mem_cons.mp h with rfl | h'
    · exact List.mem_append.mpr (Or.inl (hall ids))
    · exact List.mem_append.mpr (Or.inr (ih _ h'))

lemma mem_validate_iff (reg : String → Bool) (r : Roadmap) (e : ValidationError) :
    e ∈ (Validate reg r).Errors ↔
      e ∈ errsRoot r ∨ e ∈ errsItems reg r.Items.enum [] ∨
      e ∈ errsDeps (itemIDsOf r) r.Items.enum ∨ e ∈ errsAreas r.Areas.enum [] ∨
      e ∈ errsPhases r.Phases.enum [] ∨
      e ∈ errsRefs r (areaIDsOf r) (phaseIDsOf r) r.Items.enum ∨
      e ∈ errsSections r.Sections.enum [] := by
  rw [validate_errors_decomp]
  simp only [validateErrors, List.mem_append, or_assoc]

lemma append_eq_data_get (c1 c2 x y : String) (h : c1 ++ x = c2 ++ y) (k : Nat)
    (h1 : k < c1.data.length) (h2 : k < c2.data.length) :
    c1.data[k]? = c2.data[k]? := by
  have hd : c1.data ++ x.data = c2.data ++ y.data := by
    have := congrArg String.data h
    simpa [String.data_append] using this
  have e1 : (c1.data ++ x.data)[k]? = c1.data[k]? := by
    rw [List.getElem?_append]
    exact if_pos h1
  have e2 : (c2.data ++ y.data)[k]? = c2.data[k]? := by
    rw [List.getElem?_append]
    exact if_pos h2
  rw [← e1, hd, e2]

lemma eq_append_data_get (c1 c2 y : String) (h : c1 = c2 ++ y) (k : Nat)
    (h1 : k < c1.data.length) (h2 : k < c2.data.length) :
    c1.data[k]? = c2.data[k]? := by
  have h' : c1 ++ "" = c2 ++ y := by rw [String.append_empty]; exact h
  exact append_eq_data_get c1 c2 "" y h' k h1 h2

lemma string_append_left_cancel {c x y : String} (h : c ++ x = c ++ y) : x = y := by
  have hd := congrArg String.data h
  simp only [String.data_append] at hd
  exact String.ext (List.append_cancel_left hd)

lemma string_append_right_cancel {x y c : String} (h : x ++ c = y ++ c) : x = y := by
  have hd := congrArg String.data h
  simp only [String.data_append] at hd
  exact String.ext (List.append_cancel_right hd)

lemma refArea_ne_refItem (x y : String) :
    "references unknown area: " ++ x ≠ "references unknown item: " ++ y := by
  intro h
  have := append_eq_data_get _ _ _ _ h 19 (by decide) (by decide)
  exact absurd this (by decide)

lemma refArea_ne_refPhase (x y : String) :
    "references unknown area: " ++ x ≠ "references unknown phase: " ++ y := by
  intro h
  have := append_eq_data_get _ _ _ _ h 19 (by decide) (by decide)
  exact absurd this (by decide)

lemma refItem_ne_refPhase (x y : String) :
    "references unknown item: " ++ x ≠ "references unknown phase: " ++ y := by
  intro h
  have := append_eq_data_get _ _ _ _ h 19 (by decide) (by decide)
  exact absurd this (by decide)

lemma plainMsg_ne_ref {e : ValidationError} (hp : plainMsg e) (R : String)
    (h0 : R.data[0]? = some 'r') (h2 : R.data[2]? = some 'f') (hlen : 2 < R.data.length)
    (x : String) : e.Message ≠ R ++ x := by
  intro heq
  rcases hp with h | ⟨u, h⟩ | ⟨u, h⟩ | ⟨u, h⟩ | ⟨u, h⟩ | ⟨u, h⟩ | ⟨u, h⟩ | ⟨u, h⟩
  · rw [h] at heq
    have := eq_append_data_get _ R x heq 2 (by decide) hlen
    rw [h2] at this
    exact absurd this (by decide)
  · rw [h] at heq
    have := append_eq_data_get _ R u x heq 0 (by decide) (by omega)
    rw [h0] at this
    exact absurd this (by decide)
  · rw [h] at heq
    have := append_eq_data_get _ R u x heq 0 (by decide) (by omega)
    rw [h0] at this
    exact absurd this (by decide)
  · rw [h] at heq
    have := append_eq_data_get _ R u x heq 0 (by decide) (by omega)
    rw [h0] at this
    exact absurd this (by decide)
  · rw [h] at heq
    have := append_eq_data_get _ R u x heq 0 (by decide) (by omega)
    rw [h0] at this
    exact absurd this (by decide)
  · rw [h] at heq
    have := append_eq_data_get _ R u x heq 0 (by decide) (by omega)
    rw [h0] at this
    exact absurd this (by decide)
  · rw [h] at heq
    have := append_eq_data_get _ R u x heq 2 (by decide) hlen
    rw [h2] at this
    exact absurd this (by decide)
  · rw [h] at heq
    have := append_eq_data_get _ R u x heq 0 (by decide) (by omega)
    rw [h0] at this
    exact absurd this (by decide)

lemma msg_ne_aux (c1 c2 : String) (k : Nat) (h1 : k < c1.data.length) (h2 : k < c2.data.length)
    (hne : ¬ c1.data[k]? = c2.data[k]?) (x y : String) : ¬ (c1 ++ x = c2 ++ y) :=
  fun h => hne (append_eq_data_get c1 c2 x y h k h1 h2)

lemma msg_ne_aux_const (c1 c2 : String) (k : Nat) (h1 : k < c1.data.length)
    (h2 : k < c2.data.length) (hne : ¬ c1.data[k]? = c2.data[k]?) (y : String) :
    ¬ (c1 = c2 ++ y) :=
  fun h => hne (eq_append_data_get c1 c2 y h k h1 h2)

lemma plainMsg_contentBlock {b : ContentBlock} {pfx : String} {e : ValidationError}
    (h : validateContentBlock b pfx = some e) : plainMsg e := by
  simp only [validateContentBlock] at h
  split_ifs at h
  all_goals
    first
      | exact Option.noConfusion h
      | (injection h with h'
         subst h'
         first
           | exact Or.inl rfl
           | exact Or.inr (Or.inr (Or.inr (Or.inr (Or.inr (Or.inr (Or.inl ⟨b.Type', rfl⟩))))))
           | exact Or.inr (Or.inr (Or.inr (Or.inr (Or.inr (Or.inr (Or.inl ⟨"table", rfl⟩))))))
           | exact Or.inr (Or.inr (Or.inr (Or.inr (Or.inr (Or.inr (Or.inl ⟨"list", rfl⟩))))))
           | exact Or.inr (Or.inr (Or.inr (Or.inr (Or.inr (Or.inr (Or.inr ⟨b.Type', rfl⟩)))))))

lemma plainMsg_errsItemOwn {reg : String → Bool} {ids : List String} {p : Nat × Item}
    {e : ValidationError} (h : e ∈ errsItemOwn reg ids p) : plainMsg e := by
  rcases (mem_errsItemOwn_iff reg ids p e).mp h with
    ⟨_, rfl⟩ | ⟨_, _, rfl⟩ | ⟨_, rfl⟩ | ⟨_, rfl⟩ | ⟨_, _, rfl⟩ | ⟨_, rfl⟩ | ⟨_, rfl⟩ |
    ⟨q, _, _, rfl⟩ | ⟨q, _, hb⟩
  · exact Or.inl rfl
  · exact Or.inr (Or.inr (Or.inl ⟨_, rfl⟩))
  · exact Or.inl rfl
  · exact Or.inl rfl
  · exact Or.inr (Or.inr (Or.inr (Or.inl ⟨_, rfl⟩)))
  · exact Or.inr (Or.inr (Or.inr (Or.inr (Or.inl
      ⟨p.2.TargetQuarter ++ " (expected 'Q1 2026')", String.append_assoc _ _ _⟩))))
  · exact Or.inr (Or.inr (Or.inr (Or.inr (Or.inr (Or.inl
      ⟨p.2.Type' ++ " (see structured-changelog for valid types)", String.append_assoc _ _ _⟩)))))
  · exact Or.inl rfl
  · exact plainMsg_contentBlock hb

lemma plainMsg_errsItems {reg : String → Bool} {l : List (Nat × Item)} {ids : List String}
    {e : ValidationError} (h : e ∈ errsItems reg l ids) : plainMsg e := by
  obtain ⟨p, _, ids', h'⟩ := mem_errsItems h
  exact plainMsg_errsItemOwn h'

lemma plainMsg_errsRoot {r : Roadmap} {e : ValidationError} (h : e ∈ errsRoot r) : plainMsg e := by
  rcases List.mem_append.mp h with h | h
  · rcases (mem_ite2_singleton _ _ e _ _).mp h with ⟨_, rfl⟩ | ⟨_, _, rfl⟩
    · exact Or.inl rfl
    · exact Or.inr (Or.inl ⟨_, rfl⟩)
  · rcases (mem_ite_singleton _ e _).mp h with ⟨_, rfl⟩
    exact Or.inl rfl

lemma plainMsg_errsAreas {l : List (Nat × Area)} {ids : List String} {e : ValidationError}
    (h : e ∈ errsAreas l ids) : plainMsg e := by
  obtain ⟨p, _, ids', h'⟩ := mem_errsAreas h
  rcases (mem_errsAreaOwn_iff ids' p e).mp h' with ⟨_, rfl⟩ | ⟨_, _, rfl⟩ | ⟨_, rfl⟩
  · exact Or.inl rfl
  · exact Or.inr (Or.inr (Or.inl ⟨_, rfl⟩))
  · exact Or.inl rfl

lemma plainMsg_errsPhases {l : List (Nat × Phase)} {ids : List String} {e : ValidationError}
    (h : e ∈ errsPhases l ids) : plainMsg e := by
  obtain ⟨p, _, ids', h'⟩ := mem_errsPhases h
  rcases (mem_errsPhaseOwn_iff ids' p e).mp h' with ⟨_, rfl⟩ | ⟨_, _, rfl⟩ | ⟨_, rfl⟩ | ⟨_, rfl⟩
  · exact Or.inl rfl
  · exact Or.inr (Or.inr (Or.inl ⟨_, rfl⟩))
  · exact Or.inl rfl
  · exact Or.inr (Or.inr (Or.inr (Or.inl ⟨_, rfl⟩)))

lemma plainMsg_errsSections {l : List (Nat × Section)} {ids : List String} {e : ValidationError}
    (h : e ∈ errsSections l ids) : plainMsg e := by
  obtain ⟨p, _, ids', h'⟩ := mem_errsSections h
  rcases (mem_errsSectionOwn_iff ids' p e).mp h' with
    ⟨_, rfl⟩ | ⟨_, _, rfl⟩ | ⟨_, rfl⟩ | ⟨q, _, hb⟩
  · exact Or.inl rfl
  · exact Or.inr (Or.inr (Or.inl ⟨_, rfl⟩))
  · exact Or.inl rfl
  · exact plainMsg_contentBlock hb

lemma exists_enum_iff {α : Type} (P : α → Prop) (l : List α) :
    (∃ p ∈ l.enum, P p.2) ↔ ∃ a ∈ l, P a := by
  constructor
  · rintro ⟨p, hp, h⟩
    exact ⟨p.2, mem_snd_of_mem_enum hp, h⟩
  · rintro ⟨a, ha, h⟩
    obtain ⟨n, rfl⟩ := List.mem_iff_get.mp ha
    exact ⟨(n.1, l.get n), mem_enum_get l n.1 n.2, h⟩

lemma contains_areaIDsOf (r : Roadmap) (s : String) :
    (areaIDsOf r).contains s = true ↔ s ≠ "" ∧ ∃ a ∈ r.Areas, a.ID = s := by
  rw [areaIDsOf, contains_idsAfter]
  rw [exists_enum_iff (fun x => x.ID = s) r.Areas]
  simp [List.contains, List.elem]

lemma contains_phaseIDsOf (r : Roadmap) (s : String) :
    (phaseIDsOf r).contains s = true ↔ s ≠ "" ∧ ∃ a ∈ r.Phases, a.ID = s := by
  rw [phaseIDsOf, contains_idsAfter]
  rw [exists_enum_iff (fun x => x.ID = s) r.Phases]
  simp [List.contains, List.elem]

lemma contains_itemIDsOf (r : Roadmap) (s : String) :
    (itemIDsOf r).contains s = true ↔ s ≠ "" ∧ ∃ it ∈ r.Items, it.ID = s := by
  rw [itemIDsOf, contains_idsAfter]
  rw [exists_enum_iff (fun x => x.ID = s) r.Items]
  simp [List.contains, List.elem]

/-- C1: `Validate` is a total function into a plain `ValidationResult` (the
embedding is a Lean function, so it cannot raise), and the returned `Valid`
flag is `true` exactly when the returned `Errors` list is empty. -/
theorem claim_C1 (reg : String → Bool) (r : Roadmap) :
    (Validate reg r).Valid = true ↔ (Validate reg r).Errors = [] := by
  have h := validate_resultInv reg r
  rw [resultInv] at h
  rw [h]
  cases (Validate reg r).Errors <;> simp

/-- C4: the error list of `Validate` is exactly the concatenation, in the
contracted traversal order, of: root ir_version/project errors, per-item
errors in document order (id, title, status, target_quarter, type, tasks,
content blocks — the order of the `errsItemOwn` concatenation), all
depends_on reference errors, area errors, phase errors, item area/phase
reference errors, and section errors. -/
theorem claim_C4 (reg : String → Bool) (r : Roadmap) :
    (Validate reg r).Errors = validateErrors reg r :=
  validate_errors_decomp reg r

/-- C2: for an item with a non-empty `area`, `Validate` reports the
unknown-area error on that item's `items[i].area` path exactly when the
Areas collection is non-empty and no Area has that id (an empty Areas
collection disables the check); and the same rule for `phase` relative to
Phases. -/
theorem claim_C2 (reg : String → Bool) (r : Roadmap) (i : Nat) (hi : i < r.Items.length) :
    ((r.Items.get ⟨i, hi⟩).Area ≠ "" →
      ((⟨"items[" ++ toString i ++ "].area",
          "references unknown area: " ++ (r.Items.get ⟨i, hi⟩).Area⟩ : ValidationError) ∈
          (Validate reg r).Errors ↔
        (r.Areas ≠ [] ∧ ∀ a ∈ r.Areas, a.ID ≠ (r.Items.get ⟨i, hi⟩).Area))) ∧
    ((r.Items.get ⟨i, hi⟩).Phase ≠ "" →
      ((⟨"items[" ++ toString i ++ "].phase",
          "references unknown phase: " ++ (r.Items.get ⟨i, hi⟩).Phase⟩ : ValidationError) ∈
          (Validate reg r).Errors ↔
        (r.Phases ≠ [] ∧ ∀ ph ∈ r.Phases, ph.ID ≠ (r.Items.get ⟨i, hi⟩).Phase))) := by
  constructor
  · intro hA
    constructor
    · intro hmem
      rcases (mem_validate_iff reg r _).mp hmem with h | h | h | h | h | h | h
      · exact absurd rfl (plainMsg_ne_ref (plainMsg_errsRoot h) _ (by decide) (by decide) (by decide) _)
      · exact absurd rfl (plainMsg_ne_ref (plainMsg_errsItems h) _ (by decide) (by decide) (by decide) _)
      · obtain ⟨p, hp, dep, hdep, hc, heq⟩ := (mem_errsDeps _ _ _).mp h
        exact absurd (congrArg ValidationError.Message heq) (refArea_ne_refItem _ _)
      · exact absurd rfl (plainMsg_ne_ref (plainMsg_errsAreas h) _ (by decide) (by decide) (by decide) _)
      · exact absurd rfl (plainMsg_ne_ref (plainMsg_errsPhases h) _ (by decide) (by decide) (by decide) _)
      · obtain ⟨p, hp, hcase⟩ := (mem_errsRefs _ _ _ _ _).mp h
        rcases hcase with ⟨⟨hA', hlen, hcont⟩, heq⟩ | ⟨⟨hP', hlen, hcont⟩, heq⟩
        · have hAA : (r.Items.get ⟨i, hi⟩).Area = p.2.Area :=
            string_append_left_cancel (congrArg ValidationError.Message heq)
          refine ⟨List.length_pos.mp hlen, fun a ha haid => ?_⟩
          have : (areaIDsOf r).contains p.2.Area = true :=
            (contains_areaIDsOf r p.2.Area).mpr ⟨hA', a, ha, haid.trans hAA⟩
          rw [hcont] at this
          exact Bool.noConfusion this
        · exact absurd (congrArg ValidationError.Message heq) (refArea_ne_refPhase _ _)
      · exact absurd rfl (plainMsg_ne_ref (plainMsg_errsSections h) _ (by decide) (by decide) (by decide) _)
    · rintro ⟨hne, hall⟩
      apply (mem_validate_iff reg r _).mpr
      refine Or.inr (Or.inr (Or.inr (Or.inr (Or.inr (Or.inl ?_)))))
      apply (mem_errsRefs _ _ _ _ _).mpr
      refine ⟨(i, r.Items.get ⟨i, hi⟩), mem_enum_get r.Items i hi,
        Or.inl ⟨⟨hA, List.length_pos.mpr hne, ?_⟩, rfl⟩⟩
      cases hcb : (areaIDsOf r).contains (r.Items.get ⟨i, hi⟩).Area
      · rfl
      · obtain ⟨_, a, ha, haid⟩ := (contains_areaIDsOf r _).mp hcb
        exact absurd haid (hall a ha)
  · intro hP
    constructor
    · intro hmem
      rcases (mem_validate_iff reg r _).mp hmem with h | h | h | h | h | h | h
      · exact absurd rfl (plainMsg_ne_ref (plainMsg_errsRoot h) _ (by decide) (by decide) (by decide) _)
      · exact absurd rfl (plainMsg_ne_ref (plainMsg_errsItems h) _ (by decide) (by decide) (by decide) _)
      · obtain ⟨p, hp, dep, hdep, hc, heq⟩ := (mem_errsDeps _ _ _).mp h
        exact absurd (congrArg ValidationError.Message heq).symm (refItem_ne_refPhase _ _)
      · exact absurd rfl (plainMsg_ne_ref (plainMsg_errsAreas h) _ (by decide) (by decide) (by decide) _)
      · exact absurd rfl (plainMsg_ne_ref (plainMsg_errsPhases h) _ (by decide) (by decide) (by decide) _)
      · obtain ⟨p, hp, hcase⟩ := (mem_errsRefs _ _ _ _ _).mp h
        rcases hcase with ⟨⟨hA', hlen, hcont⟩, heq⟩ | ⟨⟨hP', hlen, hcont⟩, heq⟩
        · exact absurd (congrArg ValidationError.Message heq).symm (refArea_ne_refPhase _ _)
        · have hPP : (r.Items.get ⟨i, hi⟩).Phase = p.2.Phase :=
            string_append_left_cancel (congrArg ValidationError.Message heq)
          refine ⟨List.length_pos.mp hlen, fun a ha haid => ?_⟩
          have : (phaseIDsOf r).contains p.2.Phase = true :=
            (contains_phaseIDsOf r p.2.Phase).mpr ⟨hP', a, ha, haid.trans hPP⟩
          rw [hcont] at this
          exact Bool.noConfusion this
      · exact absurd rfl (plainMsg_ne_ref (plainMsg_errsSections h) _ (by decide) (by decide) (by decide) _)
    · rintro ⟨hne, hall⟩
      apply (mem_validate_iff reg r _).mpr
      refine Or.inr (Or.inr (Or.inr (Or.inr (Or.inr (Or.inl ?_)))))
      apply (mem_errsRefs _ _ _ _ _).mpr
      refine ⟨(i, r.Items.get ⟨i, hi⟩), mem_enum_get r.Items i hi,
        Or.inr ⟨⟨hP, List.length_pos.mpr hne, ?_⟩, rfl⟩⟩
      cases hcb : (phaseIDsOf r).contains (r.Items.get ⟨i, hi⟩).Phase
      · rfl
      · obtain ⟨_, a, ha, haid⟩ := (contains_phaseIDsOf r _).mp hcb
        exact absurd haid (hall a ha)

/-- C3 (amended): a depends_on entry `d` of item `i` yields the reference
error on `items[i].depends_on` iff no item with a NON-EMPTY id equals `d` —
equivalently, iff `d` is empty or no item id equals `d`. (Forward
references are covered: the collected id set ranges over the whole Items
collection.) The claim as stated — "iff `d` equals no item id anywhere" —
fails when `d` is empty and an item has an empty id, see the
counterexample. -/
theorem claim_C3 (reg : String → Bool) (r : Roadmap) (i : Nat) (hi : i < r.Items.length)
    (d : String) (hd : d ∈ (r.Items.get ⟨i, hi⟩).DependsOn) :
    ((⟨"items[" ++ toString i ++ "].depends_on", "references unknown item: " ++ d⟩ :
      ValidationError) ∈ (Validate reg r).Errors ↔
      (d = "" ∨ ∀ it ∈ r.Items, it.ID ≠ d)) := by
  constructor
  · intro hmem
    rcases (mem_validate_iff reg r _).mp hmem with h | h | h | h | h | h | h
    · exact absurd rfl (plainMsg_ne_ref (plainMsg_errsRoot h) _ (by decide) (by decide) (by decide) _)
    · exact absurd rfl (plainMsg_ne_ref (plainMsg_errsItems h) _ (by decide) (by decide) (by decide) _)
    · obtain ⟨p, hp, dep, hdep, hc, heq⟩ := (mem_errsDeps _ _ _).mp h
      have hdd : d = dep := string_append_left_cancel (congrArg ValidationError.Message heq)
      subst hdd
      by_cases hD : d = ""
      · exact Or.inl hD
      · refine Or.inr (fun it hit hid => ?_)
        exact hc ((contains_itemIDsOf r d).mpr ⟨hD, it, hit, hid⟩)
    · exact absurd rfl (plainMsg_ne_ref (plainMsg_errsAreas h) _ (by decide) (by decide) (by decide) _)
    · exact absurd rfl (plainMsg_ne_ref (plainMsg_errsPhases h) _ (by decide) (by decide) (by decide) _)
    · obtain ⟨p, hp, hcase⟩ := (mem_errsRefs _ _ _ _ _).mp h
      rcases hcase with ⟨_, heq⟩ | ⟨_, heq⟩
      · exact absurd (congrArg ValidationError.Message heq).symm (refArea_ne_refItem _ _)
      · exact absurd (congrArg ValidationError.Message heq) (refItem_ne_refPhase _ _)
    · exact absurd rfl (plainMsg_ne_ref (plainMsg_errsSections h) _ (by decide) (by decide) (by decide) _)
  · intro hcond
    apply (mem_validate_iff reg r _).mpr
    refine Or.inr (Or.inr (Or.inl ?_))
    apply (mem_errsDeps _ _ _).mpr
    refine ⟨(i, r.Items.get ⟨i, hi⟩), mem_enum_get r.Items i hi, d, hd, ?_, rfl⟩
    intro hct
    obtain ⟨hne, it, hit, hid⟩ := (contains_itemIDsOf r d).mp hct
    rcases hcond with h0 | hall
    · exact hne h0
    · exact hall it hit hid

/-- C3 counterexample to the claim as stated: in `rDepEmpty` the single
item has id `""` and depends_on entry `""`; the entry equals an item id
field, yet the reference error IS reported, because an empty id is never
added to the collected id set. -/
theorem claim_C3_counterexample :
    ((⟨"items[0].depends_on", "references unknown item: "⟩ : ValidationError) ∈
      (Validate regAll rDepEmpty).Errors) ∧
    ∃ it ∈ rDepEmpty.Items, it.ID = "" ∧ "" ∈ it.DependsOn := by
  constructor
  · decide
  · decide

/-- C3 witness: a concrete application of the amended theorem. -/
theorem claim_C3_witness :
    ((⟨"items[" ++ toString 0 ++ "].depends_on", "references unknown item: " ++ ""⟩ :
      ValidationError) ∈ (Validate regAll rDepEmpty).Errors) :=
  (claim_C3 regAll rDepEmpty 0 (by decide) "" (by decide)).mpr (Or.inl rfl)

/-- C2 witness: in `rGate` the item's `area = "core"` does not match the
single area id `other`, so the unknown-area error is present. -/
theorem claim_C2_witness :
    ((⟨"items[" ++ toString 0 ++ "].area",
      "references unknown area: " ++ (rGate.Items.get ⟨0, by decide⟩).Area⟩ :
      ValidationError) ∈ (Validate regAll rGate).Errors) :=
  ((claim_C2 regAll rGate 0 (by decide)).1 (by decide)).mpr ⟨by decide, by decide⟩

lemma mem_errsRoot_iff (r : Roadmap) (e : ValidationError) :
    e ∈ errsRoot r ↔
      (r.IRVersion = "" ∧ e = ⟨"ir_version", "required field is missing"⟩) ∨
      (¬r.IRVersion = "" ∧ r.IRVersion ≠ "1.0" ∧
        e = ⟨"ir_version", "unsupported version: " ++ r.IRVersion⟩) ∨
      (r.Project = "" ∧ e = ⟨"project", "required field is missing"⟩) := by
  simp only [errsRoot, List.mem_append, mem_ite2_singleton, mem_ite_singleton, or_assoc]

lemma blockMsg_cases {b : ContentBlock} {pfx : String} {e : ValidationError}
    (h : validateContentBlock b pfx = some e) :
    e.Message = "required field is missing" ∨
    (∃ x, e.Message = "required for type " ++ x) ∨
    (∃ x, e.Message = "unknown type: " ++ x) := by
  simp only [validateContentBlock] at h
  split_ifs at h
  all_goals
    first
      | exact Option.noConfusion h
      | (injection h with h'
         subst h'
         first
           | exact Or.inl rfl
           | exact Or.inr (Or.inl ⟨b.Type', rfl⟩)
           | exact Or.inr (Or.inl ⟨"table", rfl⟩)
           | exact Or.inr (Or.inl ⟨"list", rfl⟩)
           | exact Or.inr (Or.inr ⟨b.Type', rfl⟩))

lemma fmt_mem_errsItemOwn {reg : String → Bool} {ids : List String} {p : Nat × Item}
    {e : ValidationError} (h : e ∈ errsItemOwn reg ids p) {x : String}
    (hm : e.Message = "invalid format: " ++ x) :
    (p.2.TargetQuarter ≠ "" ∧ isValidQuarter p.2.TargetQuarter = false) ∧
    e = ⟨"items[" ++ toString p.1 ++ "]" ++ ".target_quarter",
      "invalid format: " ++ p.2.TargetQuarter ++ " (expected 'Q1 2026')"⟩ := by
  rcases (mem_errsItemOwn_iff reg ids p e).mp h with
    ⟨_, rfl⟩ | ⟨_, _, rfl⟩ | ⟨_, rfl⟩ | ⟨_, rfl⟩ | ⟨_, _, rfl⟩ | ⟨hq, rfl⟩ | ⟨_, rfl⟩ |
    ⟨q, _, _, rfl⟩ | ⟨q, _, hb⟩
  · exact absurd hm (msg_ne_aux_const "required field is missing" "invalid format: " 0
      (by decide) (by decide) (by decide) _)
  · exact absurd hm (msg_ne_aux "duplicate ID: " "invalid format: " 0
      (by decide) (by decide) (by decide) _ _)
  · exact absurd hm (msg_ne_aux_const "required field is missing" "invalid format: " 0
      (by decide) (by decide) (by decide) _)
  · exact absurd hm (msg_ne_aux_const "required field is missing" "invalid format: " 0
      (by decide) (by decide) (by decide) _)
  · exact absurd hm (msg_ne_aux "invalid status: " "invalid format: " 8
      (by decide) (by decide) (by decide) _ _)
  · exact ⟨hq, rfl⟩
  · have hm' : ("invalid change type: " ++ p.2.Type') ++
        " (see structured-changelog for valid types)" = "invalid format: " ++ x := hm
    rw [String.append_assoc] at hm'
    exact absurd hm' (msg_ne_aux "invalid change type: " "invalid format: " 8
      (by decide) (by decide) (by decide) _ _)
  · exact absurd hm (msg_ne_aux_const "required field is missing" "invalid format: " 0
      (by decide) (by decide) (by decide) _)
  · rcases blockMsg_cases hb with hbm | ⟨u, hbm⟩ | ⟨u, hbm⟩
    · rw [hbm] at hm
      exact absurd hm (msg_ne_aux_const "required field is missing" "invalid format: " 0
      (by decide) (by decide) (by decide) _)
    · rw [hbm] at hm
      exact absurd hm (msg_ne_aux "required for type " "invalid format: " 0
      (by decide) (by decide) (by decide) _ _)
    · rw [hbm] at hm
      exact absurd hm (msg_ne_aux "unknown type: " "invalid format: " 0
      (by decide) (by decide) (by decide) _ _)

lemma isValidQuarter_iff (q : String) : isValidQuarter q = true ↔
    ∃ (c : Char) (ds : List Char), q.data = 'Q' :: c :: ' ' :: ds ∧
      (c = '1' ∨ c = '2' ∨ c = '3' ∨ c = '4') ∧ ds.length = 4 ∧
      ∀ ch ∈ ds, ch.isDigit = true := by
  constructor
  · intro h
    unfold isValidQuarter at h
    split at h
    next c ds heq =>
      simp only [Bool.and_eq_true, Bool.or_eq_true, beq_iff_eq, List.all_eq_true] at h
      exact ⟨c, ds, heq, by tauto, by tauto, by tauto⟩
    next => exact Bool.noConfusion h
  · rintro ⟨c, ds, hdata, hc, hlen, hdig⟩
    unfold isValidQuarter
    rw [hdata]
    simp only [Bool.and_eq_true, Bool.or_eq_true, beq_iff_eq, List.all_eq_true]
    refine ⟨⟨?_, ?_⟩, ?_⟩
    · tauto
    · simp [hlen]
    · exact hdig

lemma fmt_target_ne (c : String) (k : Nat) (h1 : k < c.data.length)
    (h2 : k < "invalid format: ".data.length)
    (hne : ¬ c.data[k]? = "invalid format: ".data[k]?) (u TQ sfx : String) :
    ¬ (c ++ u = "invalid format: " ++ TQ ++ sfx) := by
  intro h
  rw [String.append_assoc] at h
  exact msg_ne_aux c "invalid format: " k h1 h2 hne u (TQ ++ sfx) h

lemma fmt_target_ne_const (c : String) (k : Nat) (h1 : k < c.data.length)
    (h2 : k < "invalid format: ".data.length)
    (hne : ¬ c.data[k]? = "invalid format: ".data[k]?) (TQ sfx : String) :
    ¬ (c = "invalid format: " ++ TQ ++ sfx) := by
  intro h
  rw [String.append_assoc] at h
  exact msg_ne_aux_const c "invalid format: " k h1 h2 hne (TQ ++ sfx) h

/-- C7: for an item with a non-empty `target_quarter`, the format error on
`items[i].target_quarter` is reported iff the value fails the quarter
check; an empty `target_quarter` is never reported. The second conjunct
characterises the quarter check as the claimed pattern: a literal `Q`, a
digit 1-4, one space, and exactly four digits. -/
theorem claim_C7 (reg : String → Bool) (r : Roadmap) (i : Nat) (hi : i < r.Items.length) :
    ((⟨"items[" ++ toString i ++ "]" ++ ".target_quarter",
        "invalid format: " ++ (r.Items.get ⟨i, hi⟩).TargetQuarter ++ " (expected 'Q1 2026')"⟩ :
        ValidationError) ∈ (Validate reg r).Errors ↔
      ((r.Items.get ⟨i, hi⟩).TargetQuarter ≠ "" ∧
        isValidQuarter (r.Items.get ⟨i, hi⟩).TargetQuarter = false)) ∧
    (∀ q : String, isValidQuarter q = true ↔ ∃ (c : Char) (ds : List Char),
      q.data = 'Q' :: c :: ' ' :: ds ∧ (c = '1' ∨ c = '2' ∨ c = '3' ∨ c = '4') ∧
      ds.length = 4 ∧ ∀ ch ∈ ds, ch.isDigit = true) := by
  refine ⟨?_, isValidQuarter_iff⟩
  constructor
  · intro hmem
    rcases (mem_validate_iff reg r _).mp hmem with h | h | h | h | h | h | h
    · rcases (mem_errsRoot_iff r _).mp h with ⟨_, heq⟩ | ⟨_, _, heq⟩ | ⟨_, heq⟩
      · exact absurd (congrArg ValidationError.Message heq).symm
          (fmt_target_ne_const "required field is missing" 0 (by decide) (by decide) (by decide) _ _)
      · exact absurd (congrArg ValidationError.Message heq).symm
          (fmt_target_ne "unsupported version: " 0 (by decide) (by decide) (by decide) _ _ _)
      · exact absurd (congrArg ValidationError.Message heq).symm
          (fmt_target_ne_const "required field is missing" 0 (by decide) (by decide) (by decide) _ _)
    · obtain ⟨p, hp, ids', hown⟩ := mem_errsItems h
      obtain ⟨⟨hq1, hq2⟩, heq⟩ := fmt_mem_errsItemOwn hown (String.append_assoc _ _ _)
      have hm := congrArg ValidationError.Message heq
      have hTq : (r.Items.get ⟨i, hi⟩).TargetQuarter = p.2.TargetQuarter :=
        string_append_left_cancel (string_append_right_cancel hm)
      rw [hTq]
      exact ⟨hq1, hq2⟩
    · obtain ⟨p, hp, dep, hdep, hc, heq⟩ := (mem_errsDeps _ _ _).mp h
      exact absurd (congrArg ValidationError.Message heq).symm
        (fmt_target_ne "references unknown item: " 0 (by decide) (by decide) (by decide) _ _ _)
    · obtain ⟨p, hp, ids', hown⟩ := mem_errsAreas h
      rcases (mem_errsAreaOwn_iff ids' p _).mp hown with ⟨_, heq⟩ | ⟨_, _, heq⟩ | ⟨_, heq⟩
      · exact absurd (congrArg ValidationError.Message heq).symm
          (fmt_target_ne_const "required field is missing" 0 (by decide) (by decide) (by decide) _ _)
      · exact absurd (congrArg ValidationError.Message heq).symm
          (fmt_target_ne "duplicate ID: " 0 (by decide) (by decide) (by decide) _ _ _)
      · exact absurd (congrArg ValidationError.Message heq).symm
          (fmt_target_ne_const "required field is missing" 0 (by decide) (by decide) (by decide) _ _)
    · obtain ⟨p, hp, ids', hown⟩ := mem_errsPhases h
      rcases (mem_errsPhaseOwn_iff ids' p _).mp hown with
        ⟨_, heq⟩ | ⟨_, _, heq⟩ | ⟨_, heq⟩ | ⟨_, heq⟩
      · exact absurd (congrArg ValidationError.Message heq).symm
          (fmt_target_ne_const "required field is missing" 0 (by decide) (by decide) (by decide) _ _)
      · exact absurd (congrArg ValidationError.Message heq).symm
          (fmt_target_ne "duplicate ID: " 0 (by decide) (by decide) (by decide) _ _ _)
      · exact absurd (congrArg ValidationError.Message heq).symm
          (fmt_target_ne_const "required field is missing" 0 (by decide) (by decide) (by decide) _ _)
      · exact absurd (congrArg ValidationError.Message heq).symm
          (fmt_target_ne "invalid status: " 8 (by decide) (by decide) (by decide) _ _ _)
    · obtain ⟨p, hp, hcase⟩ := (mem_errsRefs _ _ _ _ _).mp h
      rcases hcase with ⟨_, heq⟩ | ⟨_, heq⟩
      · exact absurd (congrArg ValidationError.Message heq).symm
          (fmt_target_ne "references unknown area: " 0 (by decide) (by decide) (by decide) _ _ _)
      · exact absurd (congrArg ValidationError.Message heq).symm
          (fmt_target_ne "references unknown phase: " 0 (by decide) (by decide) (by decide) _ _ _)
    · obtain ⟨p, hp, ids', hown⟩ := mem_errsSections h
      rcases (mem_errsSectionOwn_iff ids' p _).mp hown with
        ⟨_, heq⟩ | ⟨_, _, heq⟩ | ⟨_, heq⟩ | ⟨q, _, hb⟩
      · exact absurd (congrArg ValidationError.Message heq).symm
          (fmt_target_ne_const "required field is missing" 0 (by decide) (by decide) (by decide) _ _)
      · exact absurd (congrArg ValidationError.Message heq).symm
          (fmt_target_ne "duplicate ID: " 0 (by decide) (by decide) (by decide) _ _ _)
      · exact absurd (congrArg ValidationError.Message heq).symm
          (fmt_target_ne_const "required field is missing" 0 (by decide) (by decide) (by decide) _ _)
      · rcases blockMsg_cases hb with hbm | ⟨u, hbm⟩ | ⟨u, hbm⟩
        · exact absurd hbm.symm
            (fmt_target_ne_const "required field is missing" 0 (by decide) (by decide) (by decide) _ _)
        · exact absurd hbm.symm
            (fmt_target_ne "required for type " 0 (by decide) (by decide) (by decide) _ _ _)
        · exact absurd hbm.symm
            (fmt_target_ne "unknown type: " 0 (by decide) (by decide) (by decide) _ _ _)
  · rintro ⟨hq1, hq2⟩
    apply (mem_validate_iff reg r _).mpr
    refine Or.inr (Or.inl ?_)
    have hall : ∀ ids', (⟨"items[" ++ toString i ++ "]" ++ ".target_quarter",
        "invalid format: " ++ (r.Items.get ⟨i, hi⟩).TargetQuarter ++ " (expected 'Q1 2026')"⟩ :
        ValidationError) ∈ errsItemOwn reg ids' (i, r.Items.get ⟨i, hi⟩) := by
      intro ids'
      apply (mem_errsItemOwn_iff reg ids' _ _).mpr
      exact Or.inr (Or.inr (Or.inr (Or.inr (Or.inr (Or.inl ⟨⟨hq1, hq2⟩, rfl⟩)))))
    exact mem_errsItems_of_own hall r.Items.enum [] (mem_enum_get r.Items i hi)

/-- C7 witness: `"2026-Q2"` fails the quarter pattern in `rQuarter` and the
format error is reported; `"Q2 2026"` passes the pattern. -/
theorem claim_C7_witness :
    ((⟨"items[" ++ toString 0 ++ "]" ++ ".target_quarter",
      "invalid format: " ++ (rQuarter.Items.get ⟨0, by decide⟩).TargetQuarter ++
        " (expected 'Q1 2026')"⟩ : ValidationError) ∈ (Validate regAll rQuarter).Errors) ∧
    isValidQuarter "Q2 2026" = true :=
  ⟨((claim_C7 regAll rQuarter 0 (by decide)).1).mpr ⟨by decide, by decide⟩, by decide⟩

lemma head_of_append (c x : String) {ch : Char} (h : c.data.head? = some ch) :
    (c ++ x).data.head? = some ch := by
  rw [String.data_append, List.head?_append, h]
  rfl

lemma dupItemPred_true_iff (s : String) (e : ValidationError) :
    dupItemPred s e = true ↔
      e.Message = "duplicate ID: " ++ s ∧ e.Field.data.head? = some 'i' := by
  simp [dupItemPred, Bool.and_eq_true, beq_iff_eq]

lemma countP_dup_errsRoot (s : String) (r : Roadmap) :
    List.countP (dupItemPred s) (errsRoot r) = 0 := by
  refine List.countP_eq_zero.mpr (fun e he => ?_)
  intro hd
  rcases (mem_errsRoot_iff r e).mp he with ⟨_, rfl⟩ | ⟨_, _, rfl⟩ | ⟨_, rfl⟩
  · exact msg_ne_aux_const "required field is missing" "duplicate ID: " 0
      (by decide) (by decide) (by decide) s ((dupItemPred_true_iff s _).mp hd).1
  · exact msg_ne_aux "unsupported version: " "duplicate ID: " 0
      (by decide) (by decide) (by decide) r.IRVersion s ((dupItemPred_true_iff s _).mp hd).1
  · exact msg_ne_aux_const "required field is missing" "duplicate ID: " 0
      (by decide) (by decide) (by decide) s ((dupItemPred_true_iff s _).mp hd).1

lemma countP_dup_errsDeps (s : String) (ids : List String) (l : List (Nat × Item)) :
    List.countP (dupItemPred s) (errsDeps ids l) = 0 := by
  refine List.countP_eq_zero.mpr (fun e he => ?_)
  intro hd
  obtain ⟨p, hp, dep, hdep, hc, rfl⟩ := (mem_errsDeps ids l e).mp he
  exact msg_ne_aux "references unknown item: " "duplicate ID: " 0
    (by decide) (by decide) (by decide) dep s ((dupItemPred_true_iff s _).mp hd).1

lemma countP_dup_errsRefs (s : String) (r : Roadmap) (aIDs pIDs : List String)
    (l : List (Nat × Item)) :
    List.countP (dupItemPred s) (errsRefs r aIDs pIDs l) = 0 := by
  refine List.countP_eq_zero.mpr (fun e he => ?_)
  intro hd
  obtain ⟨p, hp, hcase⟩ := (mem_errsRefs r aIDs pIDs l e).mp he
  rcases hcase with ⟨_, rfl⟩ | ⟨_, rfl⟩
  · exact msg_ne_aux "references unknown area: " "duplicate ID: " 0
      (by decide) (by decide) (by decide) p.2.Area s ((dupItemPred_true_iff s _).mp hd).1
  · exact msg_ne_aux "references unknown phase: " "duplicate ID: " 0
      (by decide) (by decide) (by decide) p.2.Phase s ((dupItemPred_true_iff s _).mp hd).1

lemma countP_dup_errsAreas (s : String) (l : List (Nat × Area)) (ids : List String) :
    List.countP (dupItemPred s) (errsAreas l ids) = 0 := by
  refine List.countP_eq_zero.mpr (fun e he => ?_)
  intro hd
  obtain ⟨p, hp, ids', hown⟩ := mem_errsAreas he
  rcases (mem_errsAreaOwn_iff ids' p e).mp hown with ⟨_, rfl⟩ | ⟨_, _, rfl⟩ | ⟨_, rfl⟩
  · exact msg_ne_aux_const "required field is missing" "duplicate ID: " 0
      (by decide) (by decide) (by decide) s ((dupItemPred_true_iff s _).mp hd).1
  · have hh := ((dupItemPred_true_iff s _).mp hd).2
    rw [head_of_append ("areas[" ++ toString p.1 ++ "]") ".id"
      (head_of_append ("areas[" ++ toString p.1) "]"
        (head_of_append "areas[" (toString p.1) rfl))] at hh
    exact absurd hh (by decide)
  · exact msg_ne_aux_const "required field is missing" "duplicate ID: " 0
      (by decide) (by decide) (by decide) s ((dupItemPred_true_iff s _).mp hd).1

lemma countP_dup_errsPhases (s : String) (l : List (Nat × Phase)) (ids : List String) :
    List.countP (dupItemPred s) (errsPhases l ids) = 0 := by
  refine List.countP_eq_zero.mpr (fun e he => ?_)
  intro hd
  obtain ⟨p, hp, ids', hown⟩ := mem_errsPhases he
  rcases (mem_errsPhaseOwn_iff ids' p e).mp hown with
    ⟨_, rfl⟩ | ⟨_, _, rfl⟩ | ⟨_, rfl⟩ | ⟨_, rfl⟩
  · exact msg_ne_aux_const "required field is missing" "duplicate ID: " 0
      (by decide) (by decide) (by decide) s ((dupItemPred_true_iff s _).mp hd).1
  · have hh := ((dupItemPred_true_iff s _).mp hd).2
    rw [head_of_append ("phases[" ++ toString p.1 ++ "]") ".id"
      (head_of_append ("phases[" ++ toString p.1) "]"
        (head_of_append "phases[" (toString p.1) rfl))] at hh
    exact absurd hh (by decide)
  · exact msg_ne_aux_const "required field is missing" "duplicate ID: " 0
      (by decide) (by decide) (by decide) s ((dupItemPred_true_iff s _).mp hd).1
  · exact msg_ne_aux "invalid status: " "duplicate ID: " 0
      (by decide) (by decide) (by decide) p.2.Status s ((dupItemPred_true_iff s _).mp hd).1

lemma countP_dup_errsSections (s : String) (l : List (Nat × Section)) (ids : List String) :
    List.countP (dupItemPred s) (errsSections l ids) = 0 := by
  refine List.countP_eq_zero.mpr (fun e he => ?_)
  intro hd
  obtain ⟨p, hp, ids', hown⟩ := mem_errsSections he
  rcases (mem_errsSectionOwn_iff ids' p e).mp hown with
    ⟨_, rfl⟩ | ⟨_, _, rfl⟩ | ⟨_, rfl⟩ | ⟨q, _, hb⟩
  · exact msg_ne_aux_const "required field is missing" "duplicate ID: " 0
      (by decide) (by decide) (by decide) s ((dupItemPred_true_iff s _).mp hd).1
  · have hh := ((dupItemPred_true_iff s _).mp hd).2
    rw [head_of_append ("sections[" ++ toString p.1 ++ "]") ".id"
      (head_of_append ("sections[" ++ toString p.1) "]"
        (head_of_append "sections[" (toString p.1) rfl))] at hh
    exact absurd hh (by decide)
  · exact msg_ne_aux_const "required field is missing" "duplicate ID: " 0
      (by decide) (by decide) (by decide) s ((dupItemPred_true_iff s _).mp hd).1
  · have hmsg := ((dupItemPred_true_iff s e).mp hd).1
    rcases blockMsg_cases hb with hbm | ⟨u, hbm⟩ | ⟨u, hbm⟩
    · exact msg_ne_aux_const "required field is missing" "duplicate ID: " 0
        (by decide) (by decide) (by decide) s (hbm.symm.trans hmsg)
    · exact msg_ne_aux "required for type " "duplicate ID: " 0
        (by decide) (by decide) (by decide) u s (hbm.symm.trans hmsg)
    · exact msg_ne_aux "unknown type: " "duplicate ID: " 0
        (by decide) (by decide) (by decide) u s (hbm.symm.trans hmsg)

lemma dupItemPred_false_of_msg {s : String} {e : ValidationError}
    (h : e.Message ≠ "duplicate ID: " ++ s) : dupItemPred s e = false := by
  cases hd : dupItemPred s e
  · rfl
  · exact absurd ((dupItemPred_true_iff s e).mp hd).1 h

lemma countP_zero_ite_singleton {α : Type} (c : Prop) [Decidable c] (P : α → Bool) (a : α)
    (h : P a = false) : List.countP P (if c then [a] else []) = 0 := by
  split <;> simp [List.countP_cons, h]

lemma countP_dup_errsItemOwn (reg : String → Bool) (s : String) (hs : s ≠ "")
    (ids : List String) (p : Nat × Item) :
    List.countP (dupItemPred s) (errsItemOwn reg ids p) =
      if p.2.ID = s ∧ ids.contains p.2.ID = true then 1 else 0 := by
  have hreq : ∀ f : String,
      dupItemPred s (⟨f, "required field is missing"⟩ : ValidationError) = false :=
    fun f => dupItemPred_false_of_msg (msg_ne_aux_const "required field is missing"
      "duplicate ID: " 0 (by decide) (by decide) (by decide) s)
  have hTasks : List.countP (dupItemPred s) (p.2.Tasks.enum.flatMap
      (taskErrs ("items[" ++ toString p.1 ++ "]"))) = 0 := by
    refine List.countP_eq_zero.mpr (fun e he => ?_)
    intro hd
    obtain ⟨q, hq, he'⟩ := List.mem_flatMap.mp he
    rcases (mem_ite_singleton _ e _).mp he' with ⟨_, rfl⟩
    exact msg_ne_aux_const "required field is missing" "duplicate ID: " 0
      (by decide) (by decide) (by decide) s ((dupItemPred_true_iff s _).mp hd).1
  have hContent : List.countP (dupItemPred s) (p.2.Content.enum.flatMap
      (blockErrs ("items[" ++ toString p.1 ++ "]"))) = 0 := by
    refine List.countP_eq_zero.mpr (fun e he => ?_)
    intro hd
    obtain ⟨q, hq, he'⟩ := List.mem_flatMap.mp he
    have hb : validateContentBlock q.2 ("items[" ++ toString p.1 ++ "]" ++
        ".content[" ++ toString q.1 ++ "]") = some e := by
      simpa [blockErrs, Option.mem_toList, Option.mem_def] using he'
    have hmsg := ((dupItemPred_true_iff s e).mp hd).1
    rcases blockMsg_cases hb with hbm | ⟨u, hbm⟩ | ⟨u, hbm⟩
    · exact msg_ne_aux_const "required field is missing" "duplicate ID: " 0
        (by decide) (by decide) (by decide) s (hbm.symm.trans hmsg)
    · exact msg_ne_aux "required for type " "duplicate ID: " 0
        (by decide) (by decide) (by decide) u s (hbm.symm.trans hmsg)
    · exact msg_ne_aux "unknown type: " "duplicate ID: " 0
        (by decide) (by decide) (by decide) u s (hbm.symm.trans hmsg)
  have hA : List.countP (dupItemPred s)
      (if p.2.ID = "" then
        [⟨"items[" ++ toString p.1 ++ "]" ++ ".id", "required field is missing"⟩]
      else if ids.contains p.2.ID then
        [⟨"items[" ++ toString p.1 ++ "]" ++ ".id", "duplicate ID: " ++ p.2.ID⟩]
      else ([] : List ValidationError)) =
      if p.2.ID = s ∧ ids.contains p.2.ID = true then 1 else 0 := by
    by_cases hID : p.2.ID = ""
    · rw [if_pos hID, if_neg (by rw [hID]; exact fun h => hs h.1.symm)]
      simp [List.countP_cons, hreq _]
    · rw [if_neg hID]
      by_cases hC : ids.contains p.2.ID = true
      · rw [if_pos hC]
        by_cases hIS : p.2.ID = s
        · rw [if_pos ⟨hIS, hC⟩]
          have hpred : dupItemPred s
              (⟨"items[" ++ toString p.1 ++ "]" ++ ".id", "duplicate ID: " ++ p.2.ID⟩ :
                ValidationError) = true := by
            refine (dupItemPred_true_iff s _).mpr ⟨by rw [hIS], ?_⟩
            exact head_of_append ("items[" ++ toString p.1 ++ "]") ".id"
              (head_of_append ("items[" ++ toString p.1) "]"
                (head_of_append "items[" (toString p.1) rfl))
          simp [List.countP_cons, hpred]
        · rw [if_neg (fun h => hIS h.1)]
          have hf : dupItemPred s
              (⟨"items[" ++ toString p.1 ++ "]" ++ ".id", "duplicate ID: " ++ p.2.ID⟩ :
                ValidationError) = false :=
            dupItemPred_false_of_msg (fun heq => hIS (string_append_left_cancel
              (show "duplicate ID: " ++ p.2.ID = "duplicate ID: " ++ s from heq)))
          simp [List.countP_cons, hf]
      · rw [if_neg hC, if_neg (fun h => hC h.2)]
        simp
  have hB : List.countP (dupItemPred s)
      (if p.2.Title = "" then
        [⟨"items[" ++ toString p.1 ++ "]" ++ ".title", "required field is missing"⟩]
      else ([] : List ValidationError)) = 0 :=
    countP_zero_ite_singleton _ _ _ (hreq _)
  have hSt : List.countP (dupItemPred s)
      (if p.2.Status = "" then
        [⟨"items[" ++ toString p.1 ++ "]" ++ ".status", "required field is missing"⟩]
      else if isValidStatus p.2.Status = false then
        [⟨"items[" ++ toString p.1 ++ "]" ++ ".status", "invalid status: " ++ p.2.Status⟩]
      else ([] : List ValidationError)) = 0 := by
    have hst : dupItemPred s
        (⟨"items[" ++ toString p.1 ++ "]" ++ ".status",
          "invalid status: " ++ p.2.Status⟩ : ValidationError) = false :=
      dupItemPred_false_of_msg (msg_ne_aux "invalid status: " "duplicate ID: " 0
        (by decide) (by decide) (by decide) p.2.Status s)
    split_ifs <;> simp [List.countP_cons, hreq _, hst]
  have hQ : List.countP (dupItemPred s)
      (if p.2.TargetQuarter ≠ "" ∧ isValidQuarter p.2.TargetQuarter = false then
        [⟨"items[" ++ toString p.1 ++ "]" ++ ".target_quarter",
          "invalid format: " ++ p.2.TargetQuarter ++ " (expected 'Q1 2026')"⟩]
      else ([] : List ValidationError)) = 0 := by
    have hq : dupItemPred s
        (⟨"items[" ++ toString p.1 ++ "]" ++ ".target_quarter",
          "invalid format: " ++ p.2.TargetQuarter ++ " (expected 'Q1 2026')"⟩ :
          ValidationError) = false := by
      refine dupItemPred_false_of_msg (fun heq => ?_)
      have heq' : ("invalid format: " ++ p.2.TargetQuarter) ++ " (expected 'Q1 2026')" =
          "duplicate ID: " ++ s := heq
      rw [String.append_assoc] at heq'
      exact msg_ne_aux "invalid format: " "duplicate ID: " 0
        (by decide) (by decide) (by decide) _ s heq'
    exact countP_zero_ite_singleton _ _ _ hq
  have hTy : List.countP (dupItemPred s)
      (if p.2.Type' ≠ "" ∧ reg p.2.Type' = false then
        [⟨"items[" ++ toString p.1 ++ "]" ++ ".type",
          "invalid change type: " ++ p.2.Type' ++ " (see structured-changelog for valid types)"⟩]
      else ([] : List ValidationError)) = 0 := by
    have hty : dupItemPred s
        (⟨"items[" ++ toString p.1 ++ "]" ++ ".type",
          "invalid change type: " ++ p.2.Type' ++
            " (see structured-changelog for valid types)"⟩ : ValidationError) = false := by
      refine dupItemPred_false_of_msg (fun heq => ?_)
      have heq' : ("invalid change type: " ++ p.2.Type') ++
          " (see structured-changelog for valid types)" = "duplicate ID: " ++ s := heq
      rw [String.append_assoc] at heq'
      exact msg_ne_aux "invalid change type: " "duplicate ID: " 0
        (by decide) (by decide) (by decide) _ s heq'
    exact countP_zero_ite_singleton _ _ _ hty
  simp only [errsItemOwn, List.countP_append, hA, hB, hSt, hQ, hTy, hTasks, hContent]
  omega

lemma countP_dup_errsItems (reg : String → Bool) (s : String) (hs : s ≠ "") :
    ∀ (l : List (Nat × Item)) (ids : List String),
      List.countP (dupItemPred s) (errsItems reg l ids) =
        List.countP (fun p => p.2.ID == s) l -
          (if ids.contains s = true then 0 else 1) := by
  intro l
  induction l with
  | nil => intro ids; simp [errsItems]
  | cons p t ih =>
    intro ids
    have hcons : errsItems reg (p :: t) ids =
        errsItemOwn reg ids p ++ errsItems reg t (idsStep ids p.2.ID) := rfl
    rw [hcons, List.countP_append, countP_dup_errsItemOwn reg s hs, ih, List.countP_cons]
    have hstep := contains_idsStep ids p.2.ID s
    by_cases h1 : p.2.ID = s <;> by_cases h2 : ids.contains s = true
    · have hc' : (idsStep ids p.2.ID).contains s = true := hstep.mpr (Or.inl h2)
      have hcid : ids.contains p.2.ID = true := by rw [h1]; exact h2
      simp only [hc', if_pos h2, if_pos (And.intro h1 hcid)]
      simp [h1]
      try omega
    · have hcid : ids.contains p.2.ID = false := by
        rw [h1]
        cases hb : ids.contains s
        · rfl
        · exact absurd hb h2
      have hc' : (idsStep ids p.2.ID).contains s = true :=
        hstep.mpr (Or.inr ⟨h1, fun h0 => hs (by rw [← h1, h0])⟩)
      have hfalse : ¬ (p.2.ID = s ∧ ids.contains p.2.ID = true) := by
        rintro ⟨_, hx⟩
        rw [hcid] at hx
        exact Bool.noConfusion hx
      simp only [hc', if_neg h2, if_pos rfl, if_neg hfalse]
      simp [h1]
      try omega
    · have hc' : (idsStep ids p.2.ID).contains s = true := hstep.mpr (Or.inl h2)
      have hfalse : ¬ (p.2.ID = s ∧ ids.contains p.2.ID = true) := fun h => h1 h.1
      simp only [hc', if_pos h2, if_neg hfalse]
      simp [h1]
      try omega
    · have hc' : (idsStep ids p.2.ID).contains s = false := by
        cases hb : (idsStep ids p.2.ID).contains s
        · rfl
        · rcases hstep.mp hb with h | ⟨hx, _⟩
          · exact absurd h h2
          · exact absurd hx h1
      have hfalse : ¬ (p.2.ID = s ∧ ids.contains p.2.ID = true) := fun h => h1 h.1
      simp only [hc', if_neg h2, if_neg hfalse]
      simp [h1]
      try omega
  
lemma dup_mem_enumFrom (reg : String → Bool) {s : String} (hs : s ≠ "") :
    ∀ (items : List Item) (n : Nat) (ids : List String) (j : Nat) (hj : j < items.length),
      (items.get ⟨j, hj⟩).ID = s →
      (ids.contains s = true ∨
        ∃ i, ∃ hij : i < j, (items.get ⟨i, Nat.lt_trans hij hj⟩).ID = s) →
      (⟨"items[" ++ toString (n + j) ++ "]" ++ ".id", "duplicate ID: " ++ s⟩ : ValidationError)
        ∈ errsItems reg (List.enumFrom n items) ids := by
  intro items
  induction items with
  | nil =>
    intro n ids j hj
    exact absurd hj (by simp)
  | cons a t ih =>
    intro n ids j hj hjs hearlier
    rw [List.enumFrom_cons]
    have hcons : errsItems reg ((n, a) :: List.enumFrom (n + 1) t) ids =
        errsItemOwn reg ids (n, a) ++ errsItems reg (List.enumFrom (n + 1) t)
          (idsStep ids a.ID) := rfl
    rw [hcons]
    cases j with
    | zero =>
      have hcont : ids.contains s = true := by
        rcases hearlier with h | ⟨i, hij, _⟩
        · exact h
        · omega
      refine List.mem_append.mpr (Or.inl ?_)
      apply (mem_errsItemOwn_iff reg ids (n, a) _).mpr
      have ha : a.ID = s := hjs
      refine Or.inr (Or.inl ⟨?_, ?_, ?_⟩)
      · exact fun h0 => hs (by rw [← ha]; exact h0)
      · have : ids.contains a.ID = true := by rw [ha]; exact hcont
        exact this
      · have hID : (n, a).2.ID = s := hjs
        rw [hID]
        simp
    | succ j' =>
      have hj' : j' < t.length := Nat.lt_of_succ_lt_succ hj
      have he : n + (j' + 1) = (n + 1) + j' := by omega
      rw [he]
      refine List.mem_append.mpr (Or.inr ?_)
      refine ih (n + 1) (idsStep ids a.ID) j' hj' hjs ?_
      rcases hearlier with h | ⟨i, hij, hiID⟩
      · exact Or.inl ((contains_idsStep ids a.ID s).mpr (Or.inl h))
      · cases i with
        | zero =>
          have ha : a.ID = s := hiID
          refine Or.inl ((contains_idsStep ids a.ID s).mpr (Or.inr ⟨ha, ?_⟩))
          exact fun h0 => hs (by rw [← ha]; exact h0)
        | succ i' =>
          exact Or.inr ⟨i', Nat.lt_of_succ_lt_succ hij, hiID⟩

/-- C8: for every non-empty id `s`, the number of duplicate-item-id errors
for `s` is the number of occurrences of `s` among item ids minus one (k
occurrences yield k-1 errors); and with exactly two occurrences, at
positions i < j, there is exactly one such error and it sits on the second
occurrence's `items[j].id` path. -/
theorem claim_C8 (reg : String → Bool) (r : Roadmap) (s : String) (hs : s ≠ "") :
    (List.countP (dupItemPred s) (Validate reg r).Errors =
      List.countP (fun it => it.ID == s) r.Items - 1) ∧
    (∀ i j, ∀ hij : i < j, ∀ hj : j < r.Items.length,
      (r.Items.get ⟨i, Nat.lt_trans hij hj⟩).ID = s →
      (r.Items.get ⟨j, hj⟩).ID = s →
      List.countP (fun it => it.ID == s) r.Items = 2 →
      (List.countP (dupItemPred s) (Validate reg r).Errors = 1 ∧
        (⟨"items[" ++ toString j ++ "]" ++ ".id", "duplicate ID: " ++ s⟩ : ValidationError) ∈
          (Validate reg r).Errors)) := by
  have hcount : List.countP (dupItemPred s) (Validate reg r).Errors =
      List.countP (fun it => it.ID == s) r.Items - 1 := by
    rw [validate_errors_decomp]
    simp only [validateErrors, List.countP_append, countP_dup_errsRoot,
      countP_dup_errsDeps, countP_dup_errsAreas, countP_dup_errsPhases,
      countP_dup_errsRefs, countP_dup_errsSections,
      countP_dup_errsItems reg s hs r.Items.enum []]
    have henum : List.countP (fun p => p.2.ID == s) r.Items.enum =
        List.countP (fun it => it.ID == s) r.Items := countP_enum (fun it => it.ID == s) r.Items
    simp [henum]
  refine ⟨hcount, fun i j hij hj hi hjs hc2 => ?_⟩
  constructor
  · rw [hcount, hc2]
  · apply (mem_validate_iff reg r _).mpr
    refine Or.inr (Or.inl ?_)
    have hm := dup_mem_enumFrom reg hs r.Items 0 [] j hj hjs (Or.inr ⟨i, hij, hi⟩)
    simpa [List.enum] using hm

/-- C8 witness: in `rDup` the id `item-1` occurs twice; exactly one
duplicate-id error is produced and it is on `items[1].id`. -/
theorem claim_C8_witness :
    List.countP (dupItemPred "item-1") (Validate regAll rDup).Errors = 1 ∧
    (⟨"items[" ++ toString 1 ++ "]" ++ ".id", "duplicate ID: " ++ "item-1"⟩ : ValidationError) ∈
      (Validate regAll rDup).Errors :=
  (claim_C8 regAll rDup "item-1" (by decide)).2 0 1 (by decide) (by decide)
    (by decide) (by decide) (by decide)

lemma foldl_group_eq (key : Item → String) :
    ∀ (l : List Item) (g0 : String → List Item) (k : String),
      (l.foldl (fun result item => fun k' =>
        if k' = key item then result k' ++ [item] else result k') g0) k
        = g0 k ++ l.filter (fun it => key it == k) := by
  intro l
  induction l with
  | nil => intro g0 k; simp
  | cons a t ih =>
    intro g0 k
    rw [List.foldl_cons, ih, List.filter_cons]
    by_cases hk : key a = k
    · have hb : (key a == k) = true := beq_iff_eq.mpr hk
      rw [if_pos hb, if_pos hk.symm]
      simp
    · have hb : ¬ ((key a == k) = true) := fun hh => hk (beq_iff_eq.mp hh)
      rw [if_neg hb, if_neg (fun h => hk h.symm)]

lemma itemsByArea_eq (r : Roadmap) (k : String) :
    ItemsByArea r k = r.Items.filter (fun it => areaKey it == k) := by
  show (r.Items.foldl (fun result item => fun k' =>
    if k' = areaKey item then result k' ++ [item] else result k') (fun _ => [])) k = _
  rw [foldl_group_eq areaKey]
  simp

lemma itemsByType_eq (r : Roadmap) (k : String) :
    ItemsByType r k = r.Items.filter (fun it => typeKey it == k) := by
  show (r.Items.foldl (fun result item => fun k' =>
    if k' = typeKey item then result k' ++ [item] else result k') (fun _ => [])) k = _
  rw [foldl_group_eq typeKey]
  simp

lemma itemsByPhase_eq (r : Roadmap) (k : String) :
    ItemsByPhase r k = r.Items.filter (fun it => phaseKey it == k) := by
  show (r.Items.foldl (fun result item => fun k' =>
    if k' = phaseKey item then result k' ++ [item] else result k') (fun _ => [])) k = _
  rw [foldl_group_eq phaseKey]
  simp

lemma itemsByStatus_eq (r : Roadmap) (k : Status) :
    ItemsByStatus r k = r.Items.filter (fun it => statusKey it == k) := by
  show (r.Items.foldl (fun result item => fun k' =>
    if k' = statusKey item then result k' ++ [item] else result k') (fun _ => [])) k = _
  rw [foldl_group_eq statusKey]
  simp

lemma itemsByQuarter_eq (r : Roadmap) (k : String) :
    ItemsByQuarter r k = r.Items.filter (fun it => quarterKey it == k) := by
  show (r.Items.foldl (fun result item => fun k' =>
    if k' = quarterKey item then result k' ++ [item] else result k') (fun _ => [])) k = _
  rw [foldl_group_eq quarterKey]
  simp

lemma itemsByPriority_eq (r : Roadmap) (k : Priority) :
    ItemsByPriority r k = r.Items.filter (fun it => priorityKey it == k) := by
  show (r.Items.foldl (fun result item => fun k' =>
    if k' = priorityKey item then result k' ++ [item] else result k') (fun _ => [])) k = _
  rw [foldl_group_eq priorityKey]
  simp

lemma bucket_sum (key : Item → String) (items : List Item) (B : String → List Item)
    (hB : ∀ k, B k = items.filter (fun it => key it == k)) :
    ((items.map key).dedup.map (fun k => (B k).length)).sum = items.length := by
  have h1 : ∀ k, (B k).length = (items.map key).count k := by
    intro k
    rw [hB k, ← List.countP_eq_length_filter, List.count_eq_countP, List.countP_map]
    rfl
  rw [List.map_congr_left (fun k _ => h1 k), List.sum_map_count_dedup_eq_length,
    List.length_map]

lemma bucket_empty (key : Item → String) (items : List Item) (B : String → List Item)
    (hB : ∀ k, B k = items.filter (fun it => key it == k)) :
    ∀ k, k ∉ items.map key → B k = [] := by
  intro k hk
  rw [hB k]
  refine List.filter_eq_nil_iff.mpr (fun a ha hka => ?_)
  exact hk (List.mem_map.mpr ⟨a, ha, beq_iff_eq.mp hka⟩)

lemma bucket_mem (key : Item → String) (items : List Item) (B : String → List Item)
    (hB : ∀ k, B k = items.filter (fun it => key it == k)) :
    ∀ it k, it ∈ B k ↔ it ∈ items ∧ key it = k := by
  intro it k
  rw [hB k, List.mem_filter]
  simp

lemma bucket_sublist (key : Item → String) (items : List Item) (B : String → List Item)
    (hB : ∀ k, B k = items.filter (fun it => key it == k)) :
    ∀ k, (B k).Sublist items := by
  intro k
  rw [hB k]
  exact List.filter_sublist items

/-- C5: each of the six grouping functions partitions the Items collection:
summed bucket sizes over the occurring keys equal the item count and every
other key's bucket is empty (completeness, no duplicates, no omissions); an
item lies in bucket `k` exactly when `k` is its grouping key (exactly one
bucket per item); an empty area/type/phase/quarter is bucketed under the
sentinel `_unspecified`/`_unspecified`/`_unphased`/`_unscheduled`; and
every bucket is a sublist of `r.Items` (relative order preserved). -/
theorem claim_C5 (r : Roadmap) :
    ((((r.Items.map areaKey).dedup.map (fun k => (ItemsByArea r k).length)).sum = r.Items.length ∧
      ∀ k, k ∉ r.Items.map areaKey → ItemsByArea r k = []) ∧
     (((r.Items.map typeKey).dedup.map (fun k => (ItemsByType r k).length)).sum = r.Items.length ∧
      ∀ k, k ∉ r.Items.map typeKey → ItemsByType r k = []) ∧
     (((r.Items.map phaseKey).dedup.map (fun k => (ItemsByPhase r k).length)).sum = r.Items.length ∧
      ∀ k, k ∉ r.Items.map phaseKey → ItemsByPhase r k = []) ∧
     (((r.Items.map statusKey).dedup.map (fun k => (ItemsByStatus r k).length)).sum = r.Items.length ∧
      ∀ k, k ∉ r.Items.map statusKey → ItemsByStatus r k = []) ∧
     (((r.Items.map quarterKey).dedup.map (fun k => (ItemsByQuarter r k).length)).sum = r.Items.length ∧
      ∀ k, k ∉ r.Items.map quarterKey → ItemsByQuarter r k = []) ∧
     (((r.Items.map priorityKey).dedup.map (fun k => (ItemsByPriority r k).length)).sum = r.Items.length ∧
      ∀ k, k ∉ r.Items.map priorityKey → ItemsByPriority r k = [])) ∧
    ((∀ it k, it ∈ ItemsByArea r k ↔ it ∈ r.Items ∧ areaKey it = k) ∧
     (∀ it k, it ∈ ItemsByType r k ↔ it ∈ r.Items ∧ typeKey it = k) ∧
     (∀ it k, it ∈ ItemsByPhase r k ↔ it ∈ r.Items ∧ phaseKey it = k) ∧
     (∀ it k, it ∈ ItemsByStatus r k ↔ it ∈ r.Items ∧ statusKey it = k) ∧
     (∀ it k, it ∈ ItemsByQuarter r k ↔ it ∈ r.Items ∧ quarterKey it = k) ∧
     (∀ it k, it ∈ ItemsByPriority r k ↔ it ∈ r.Items ∧ priorityKey it = k)) ∧
    ((∀ it, it ∈ r.Items → it.Area = "" → it ∈ ItemsByArea r "_unspecified") ∧
     (∀ it, it ∈ r.Items → it.Type' = "" → it ∈ ItemsByType r "_unspecified") ∧
     (∀ it, it ∈ r.Items → it.Phase = "" → it ∈ ItemsByPhase r "_unphased") ∧
     (∀ it, it ∈ r.Items → it.TargetQuarter = "" → it ∈ ItemsByQuarter r "_unscheduled")) ∧
    ((∀ k, (ItemsByArea r k).Sublist r.Items) ∧
     (∀ k, (ItemsByType r k).Sublist r.Items) ∧
     (∀ k, (ItemsByPhase r k).Sublist r.Items) ∧
     (∀ k, (ItemsByStatus r k).Sublist r.Items) ∧
     (∀ k, (ItemsByQuarter r k).Sublist r.Items) ∧
     (∀ k, (ItemsByPriority r k).Sublist r.Items)) := by
  refine ⟨⟨⟨?_, ?_⟩, ⟨?_, ?_⟩, ⟨?_, ?_⟩, ⟨?_, ?_⟩, ⟨?_, ?_⟩, ⟨?_, ?_⟩⟩,
    ⟨?_, ?_, ?_, ?_, ?_, ?_⟩, ⟨?_, ?_, ?_, ?_⟩, ⟨?_, ?_, ?_, ?_, ?_, ?_⟩⟩
  · exact bucket_sum areaKey r.Items _ (itemsByArea_eq r)
  · exact bucket_empty areaKey r.Items _ (itemsByArea_eq r)
  · exact bucket_sum typeKey r.Items _ (itemsByType_eq r)
  · exact bucket_empty typeKey r.Items _ (itemsByType_eq r)
  · exact bucket_sum phaseKey r.Items _ (itemsByPhase_eq r)
  · exact bucket_empty phaseKey r.Items _ (itemsByPhase_eq r)
  · exact bucket_sum statusKey r.Items _ (itemsByStatus_eq r)
  · exact bucket_empty statusKey r.Items _ (itemsByStatus_eq r)
  · exact bucket_sum quarterKey r.Items _ (itemsByQuarter_eq r)
  · exact bucket_empty quarterKey r.Items _ (itemsByQuarter_eq r)
  · exact bucket_sum priorityKey r.Items _ (itemsByPriority_eq r)
  · exact bucket_empty priorityKey r.Items _ (itemsByPriority_eq r)
  · exact bucket_mem areaKey r.Items _ (itemsByArea_eq r)
  · exact bucket_mem typeKey r.Items _ (itemsByType_eq r)
  · exact bucket_mem phaseKey r.Items _ (itemsByPhase_eq r)
  · exact bucket_mem statusKey r.Items _ (itemsByStatus_eq r)
  · exact bucket_mem quarterKey r.Items _ (itemsByQuarter_eq r)
  · exact bucket_mem priorityKey r.Items _ (itemsByPriority_eq r)
  · intro it hit hA
    exact (bucket_mem areaKey r.Items _ (itemsByArea_eq r) it _).mpr
      ⟨hit, by simp [areaKey, hA]⟩
  · intro it hit hT
    exact (bucket_mem typeKey r.Items _ (itemsByType_eq r) it _).mpr
      ⟨hit, by simp [typeKey, hT]⟩
  · intro it hit hP
    exact (bucket_mem phaseKey r.Items _ (itemsByPhase_eq r) it _).mpr
      ⟨hit, by simp [phaseKey, hP]⟩
  · intro it hit hQ
    exact (bucket_mem quarterKey r.Items _ (itemsByQuarter_eq r) it _).mpr
      ⟨hit, by simp [quarterKey, hQ]⟩
  · exact bucket_sublist areaKey r.Items _ (itemsByArea_eq r)
  · exact bucket_sublist typeKey r.Items _ (itemsByType_eq r)
  · exact bucket_sublist phaseKey r.Items _ (itemsByPhase_eq r)
  · exact bucket_sublist statusKey r.Items _ (itemsByStatus_eq r)
  · exact bucket_sublist quarterKey r.Items _ (itemsByQuarter_eq r)
  · exact bucket_sublist priorityKey r.Items _ (itemsByPriority_eq r)

/-- C5 witness: the item of `rGroup` with no area is bucketed under the
`_unspecified` sentinel, not dropped. -/
theorem claim_C5_witness :
    ({ ID := "b", Title := "t", Status := "planned" } : Item) ∈
      ItemsByArea rGroup "_unspecified" :=
  (claim_C5 rGroup).2.2.1.1 { ID := "b", Title := "t", Status := "planned" }
    (by decide) (by decide)

/-- C10: `ItemsByPriority` also uses the `_unspecified` sentinel (the
string cast into the `Priority` string type, sharing the key space with the
four enum values): an item with empty `priority` lands in that bucket,
every item lands in the bucket of its priority key, and membership is
exactly by key — no item is dropped. -/
theorem claim_C10 (r : Roadmap) :
    (∀ it, it ∈ r.Items → it.Priority = "" → it ∈ ItemsByPriority r "_unspecified") ∧
    (∀ it, it ∈ r.Items → it ∈ ItemsByPriority r (priorityKey it)) ∧
    (∀ it k, it ∈ ItemsByPriority r k ↔ it ∈ r.Items ∧ priorityKey it = k) := by
  refine ⟨?_, ?_, bucket_mem priorityKey r.Items _ (itemsByPriority_eq r)⟩
  · intro it hit hP
    exact (bucket_mem priorityKey r.Items _ (itemsByPriority_eq r) it _).mpr
      ⟨hit, by simp [priorityKey, hP]⟩
  · intro it hit
    exact (bucket_mem priorityKey r.Items _ (itemsByPriority_eq r) it _).mpr ⟨hit, rfl⟩

/-- C10 witness: the no-priority item of `rGroup` is in the sentinel
bucket. -/
theorem claim_C10_witness :
    ({ ID := "b", Title := "t", Status := "planned" } : Item) ∈
      ItemsByPriority rGroup "_unspecified" :=
  (claim_C10 rGroup).1 { ID := "b", Title := "t", Status := "planned" }
    (by decide) (by decide)

/-- C6: inside content-block validation, an empty `type` yields the
missing-required-field error on the block's `.type` path, a non-empty but
unrecognized `type` yields the distinct unknown-type error on the same
path, and the two messages can never coincide. -/
theorem claim_C6 (block : ContentBlock) (pfx : String) :
    (block.Type' = "" →
      validateContentBlock block pfx = some ⟨pfx ++ ".type", "required field is missing"⟩) ∧
    (block.Type' ≠ "" →
      block.Type' ∉ [ContentTypeText, ContentTypeCode, ContentTypeDiagram, ContentTypeTable,
        ContentTypeList, ContentTypeBlockquote] →
      validateContentBlock block pfx = some ⟨pfx ++ ".type", "unknown type: " ++ block.Type'⟩) ∧
    (∀ t : String, "required field is missing" ≠ "unknown type: " ++ t) := by
  refine ⟨?_, ?_, ?_⟩
  · intro h
    simp only [validateContentBlock]
    rw [if_neg (by rw [h]; decide), if_neg (by rw [h]; decide), if_neg (by rw [h]; decide),
      if_pos h]
  · intro hne hmem
    simp only [validateContentBlock]
    have hA : ¬ (block.Type' = ContentTypeText ∨ block.Type' = ContentTypeCode ∨
        block.Type' = ContentTypeDiagram ∨ block.Type' = ContentTypeBlockquote) := by
      rintro (h | h | h | h) <;> exact hmem (by rw [h]; decide)
    have hB : ¬ block.Type' = ContentTypeTable := fun h => hmem (by rw [h]; decide)
    have hC : ¬ block.Type' = ContentTypeList := fun h => hmem (by rw [h]; decide)
    rw [if_neg hA, if_neg hB, if_neg hC, if_neg hne]
  · intro t
    exact msg_ne_aux_const "required field is missing" "unknown type: " 0
      (by decide) (by decide) (by decide) t

/-- C6 witness: concrete instances of both dispatch outcomes. -/
theorem claim_C6_witness :
    validateContentBlock {} "p" = some ⟨"p" ++ ".type", "required field is missing"⟩ ∧
    validateContentBlock { Type' := "bogus" } "p" =
      some ⟨"p" ++ ".type", "unknown type: " ++ "bogus"⟩ :=
  ⟨(claim_C6 {} "p").1 rfl,
   (claim_C6 { Type' := "bogus" } "p").2.1 (by decide) (by decide)⟩

/-- C9 (amended): `GetStatusEmoji` returns the empty string for a status
outside the 4-status enumeration PROVIDED the document legend itself has no
entry for it. The claim as stated — empty regardless of the document
legend — fails, see the counterexample: a document legend entry outside the
enumeration survives the merge and its emoji is returned. -/
theorem claim_C9 (r : Roadmap) (s : Status) (hvalid : isValidStatus s = false)
    (hdoc : r.Legend.lookup s = none) : GetStatusEmoji r s = "" := by
  have h1 : ¬ s = StatusCompleted := by
    intro h
    rw [h] at hvalid
    exact absurd hvalid (by decide)
  have h2 : ¬ s = StatusInProgress := by
    intro h
    rw [h] at hvalid
    exact absurd hvalid (by decide)
  have h3 : ¬ s = StatusPlanned := by
    intro h
    rw [h] at hvalid
    exact absurd hvalid (by decide)
  have h4 : ¬ s = StatusFuture := by
    intro h
    rw [h] at hvalid
    exact absurd hvalid (by decide)
  have hdef : DefaultLegend s = none := by
    simp only [DefaultLegend]
    rw [if_neg h1, if_neg h2, if_neg h3, if_neg h4]
  simp [GetStatusEmoji, GetLegend, hdoc, hdef]

/-- C9 counterexample to the claim as stated: `"weird"` is outside the
4-status enumeration, yet `GetStatusEmoji` returns the document-supplied
emoji `"X"`, not `""`, because the document legend of `rLegendX` defines
an entry for it. -/
theorem claim_C9_counterexample :
    isValidStatus "weird" = false ∧ GetStatusEmoji rLegendX "weird" = "X" ∧
      ("X" : String) ≠ "" := by
  refine ⟨by decide, by decide, by decide⟩

/-- C9 witness: a status outside the enumeration and outside the document
legend resolves to the empty string. -/
theorem claim_C9_witness : GetStatusEmoji rLegendX "bogus" = "" :=
  claim_C9 rLegendX "bogus" (by decide) (by decide)

end SRoadmap
